import Mathlib

/-!
# Verification of the Image_Scanner model-output parsing and overlay layer

This development is a shallow embedding of `utils/visualization_utils.py`:
the Gemini JSON output parser (`parse_gemini_json_output`), the post-parse
`box_2d` repair, and the overlay generators (`generate_point_html`,
`generate_2d_box_html`, `generate_3d_box_html`, `generate_segmentation_html`).

Python strings are modelled as `List Char`; Python numeric values flowing
through the overlay generators are modelled exactly as rationals (`ℚ`);
JSON numbers handled by the parser are modelled as integers (every
coordinate payload this application exchanges is integral — fractional
literals fall outside the model).  Python exceptions are modelled with
`Except PyExc`; an `except` clause becomes an explicit match on the
exception kind, so which exception kinds a handler catches is visible in
the embedding.
-/

set_option maxRecDepth 4000

namespace ImageScanner

/-- Shorthand: the character list of a string literal. -/
def toL (s : String) : List Char := s.data

/-- Left-brace character, kept as a named constant. -/
def lbrace : Char := Char.ofNat 123

/-- Right-brace character, kept as a named constant. -/
def rbrace : Char := Char.ofNat 125

/-- Whitespace recognised by Python's `str.strip` (the ASCII part). -/
def isPyWs (c : Char) : Bool :=
  c = ' ' || c = '\t' || c = '\n' || c = '\r' || c = '\x0b' || c = '\x0c'

/-- Whitespace skipped by Python's `json` scanner (JSON whitespace). -/
def isJWs (c : Char) : Bool :=
  c = ' ' || c = '\t' || c = '\n' || c = '\r'

/-- Python `str.strip()`: drop leading and trailing whitespace. -/
def pyStrip (s : List Char) : List Char :=
  ((s.dropWhile isPyWs).reverse.dropWhile isPyWs).reverse

/-- Skip leading JSON whitespace. -/
def skipJWs (s : List Char) : List Char := s.dropWhile isJWs

/-- Python `s.startswith(p)` on character lists. -/
def pyStartswith : List Char → List Char → Bool
  | _, [] => true
  | [], _ :: _ => false
  | c :: s, d :: p => c = d && pyStartswith s p

/-- Python `s.endswith(p)` on character lists. -/
def pyEndswith (s p : List Char) : Bool :=
  pyStartswith s.reverse p.reverse

/-- The decimal digit character for `n < 10`. -/
def digitChar (n : Nat) : Char := Char.ofNat (48 + n)

/-- Fuel-bounded digit expansion (structural, so it evaluates by
reduction); any fuel above the number suffices. -/
def natToDigitsAux : Nat → Nat → List Char
  | 0, _ => []
  | fuel + 1, n =>
    if n < 10 then [digitChar n]
    else natToDigitsAux fuel (n / 10) ++ [digitChar (n % 10)]

/-- Decimal digits of a natural number, most significant first
(the notation Python's `json.dumps` emits for a non-negative int). -/
def natToDigits (n : Nat) : List Char := natToDigitsAux (n + 1) n

theorem natToDigitsAux_mono : ∀ f1 n, n < f1 → ∀ f2, n < f2 →
    natToDigitsAux f1 n = natToDigitsAux f2 n := by
  intro f1
  induction f1 with
  | zero => omega
  | succ f1' ih =>
    intro n h1 f2 h2
    cases f2 with
    | zero => omega
    | succ f2' =>
      show (if n < 10 then [digitChar n]
            else natToDigitsAux f1' (n / 10) ++ [digitChar (n % 10)])
          = (if n < 10 then [digitChar n]
            else natToDigitsAux f2' (n / 10) ++ [digitChar (n % 10)])
      by_cases h10 : n < 10
      · rw [if_pos h10, if_pos h10]
      · rw [if_neg h10, if_neg h10,
          ih (n / 10) (by omega) f2' (by omega)]

theorem natToDigits_unfold (n : Nat) :
    natToDigits n
      = if n < 10 then [digitChar n]
        else natToDigits (n / 10) ++ [digitChar (n % 10)] := by
  show natToDigitsAux (n + 1) n = _
  by_cases h10 : n < 10
  · simp [natToDigitsAux, h10]
  · show (if n < 10 then [digitChar n]
        else natToDigitsAux n (n / 10) ++ [digitChar (n % 10)]) = _
    rw [if_neg h10, if_neg h10,
      natToDigitsAux_mono n (n / 10) (by omega) (n / 10 + 1) (by omega)]
    rfl

/-- Numeric value of a list of decimal digit characters. -/
def digitsVal (ds : List Char) : Nat :=
  ds.foldl (fun a c => 10 * a + (c.toNat - 48)) 0

/-- Lower-case hexadecimal digit character for `n < 16`. -/
def hexDigit (n : Nat) : Char :=
  if n < 10 then Char.ofNat (48 + n) else Char.ofNat (87 + n)

/-- Value of a hexadecimal digit character, if it is one. -/
def hexVal (c : Char) : Option Nat :=
  if 48 ≤ c.toNat ∧ c.toNat ≤ 57 then some (c.toNat - 48)
  else if 97 ≤ c.toNat ∧ c.toNat ≤ 102 then some (c.toNat - 87)
  else if 65 ≤ c.toNat ∧ c.toNat ≤ 70 then some (c.toNat - 55)
  else none

/-- JSON values as Python's `json.loads` produces them for this
application: `None`, `bool`, `int`, `str`, `list`, `dict`.
Numbers are modelled as integers (all coordinate payloads are integral);
dictionaries are association lists in insertion order, as built by the
parser. -/
inductive Json where
  | null : Json
  | bool (b : Bool) : Json
  | num (n : Int) : Json
  | str (s : List Char) : Json
  | arr (items : List Json) : Json
  | obj (fields : List (List Char × Json)) : Json

/-- Serialisation of one string character, as Python's `json.dumps` emits
it (non-ASCII characters emitted literally, i.e. the `ensure_ascii=False`
encoding; the fenced round-trip property is insensitive to this choice
because both encodings decode to the same character). -/
def encodeChar (c : Char) : List Char :=
  if c = '"' then ['\\', '"']
  else if c = '\\' then ['\\', '\\']
  else if c = '\n' then ['\\', 'n']
  else if c = '\t' then ['\\', 't']
  else if c = '\r' then ['\\', 'r']
  else if c = '\x08' then ['\\', 'b']
  else if c = '\x0c' then ['\\', 'f']
  else if c.toNat < 32 then
    ['\\', 'u', '0', '0', hexDigit (c.toNat / 16), hexDigit (c.toNat % 16)]
  else [c]

/-- Serialisation of a string body (without the surrounding quotes). -/
def encodeStr (s : List Char) : List Char := (s.map encodeChar).flatten

/-- Serialisation of an integer. -/
def dumpInt (n : Int) : List Char :=
  if n < 0 then '-' :: natToDigits (-n).toNat else natToDigits n.toNat

mutual

/-- Python `json.dumps` with its default separators `", "` and `": "`. -/
def dumps : Json → List Char
  | .null => toL "null"
  | .bool true => toL "true"
  | .bool false => toL "false"
  | .num n => dumpInt n
  | .str s => '"' :: (encodeStr s ++ ['"'])
  | .arr [] => toL "[]"
  | .arr (x :: xs) => '[' :: (dumps x ++ dumpsArrTail xs ++ [']'])
  | .obj [] => [lbrace, rbrace]
  | .obj (kv :: kvs) => lbrace :: (dumpsMember kv ++ dumpsObjTail kvs ++ [rbrace])

/-- Remaining array elements, each preceded by `", "`. -/
def dumpsArrTail : List Json → List Char
  | [] => []
  | x :: xs => ',' :: ' ' :: (dumps x ++ dumpsArrTail xs)

/-- One `"key": value` member. -/
def dumpsMember : List Char × Json → List Char
  | (k, v) => '"' :: (encodeStr k ++ ['"', ':', ' '] ++ dumps v)

/-- Remaining object members, each preceded by `", "`. -/
def dumpsObjTail : List (List Char × Json) → List Char
  | [] => []
  | kv :: kvs => ',' :: ' ' :: (dumpsMember kv ++ dumpsObjTail kvs)

end

/-- Python `dict` assignment `d[k] = v` on an association list: if `k` is
present, its value is replaced in place; otherwise the pair is appended. -/
def pyInsert (kvs : List (List Char × Json)) (k : List Char) (v : Json) :
    List (List Char × Json) :=
  match kvs with
  | [] => [(k, v)]
  | (k', v') :: rest =>
    if k' = k then (k', v) :: rest else (k', v') :: pyInsert rest k v

/-- Build a Python dict from parsed key/value pairs in order
(duplicate keys keep the first position but the last value). -/
def buildDict (pairs : List (List Char × Json)) : List (List Char × Json) :=
  pairs.foldl (fun acc kv => pyInsert acc kv.1 kv.2) []

/-- Python dict lookup `d[k]` / `k in d`. -/
def pyGet : List (List Char × Json) → List Char → Option Json
  | [], _ => none
  | (k', v) :: rest, k => if k' = k then some v else pyGet rest k

/-- Prepend a character to the string part of a string-parser result. -/
def cons1 (c : Char) : Option (List Char × List Char) → Option (List Char × List Char)
  | none => none
  | some (s, r) => some (c :: s, r)

/-- Body of a JSON string literal after the opening quote, as Python's
strict `json` scanner reads it: stops at the closing quote, decodes the
escapes `\" \\ \/ \b \f \n \r \t \uXXXX`, rejects raw control characters. -/
def parseStrBody : List Char → Option (List Char × List Char)
  | [] => none
  | c :: rest =>
    if c = '"' then some ([], rest)
    else if c = '\\' then
      match rest with
      | [] => none
      | e :: r =>
        if e = '"' then cons1 '"' (parseStrBody r)
        else if e = '\\' then cons1 '\\' (parseStrBody r)
        else if e = '/' then cons1 '/' (parseStrBody r)
        else if e = 'n' then cons1 '\n' (parseStrBody r)
        else if e = 't' then cons1 '\t' (parseStrBody r)
        else if e = 'r' then cons1 '\r' (parseStrBody r)
        else if e = 'b' then cons1 '\x08' (parseStrBody r)
        else if e = 'f' then cons1 '\x0c' (parseStrBody r)
        else if e = 'u' then
          match r with
          | h1 :: h2 :: h3 :: h4 :: r' =>
            match hexVal h1, hexVal h2, hexVal h3, hexVal h4 with
            | some a, some b, some c', some d =>
              let n := ((a * 16 + b) * 16 + c') * 16 + d
              if n.isValidChar then cons1 (Char.ofNat n) (parseStrBody r')
              else none
            | _, _, _, _ => none
          | _ => none
        else none
    else if c.toNat < 32 then none
    else cons1 c (parseStrBody rest)
  termination_by structural s => s

/-- Longest run of decimal digits at the front of the input. -/
def readDigits : List Char → List Char × List Char
  | [] => ([], [])
  | c :: rest =>
    if c.isDigit then
      let p := readDigits rest
      (c :: p.1, p.2)
    else ([], c :: rest)

/-- After an integer part, a following `.`/`e`/`E` would extend the token
to a float literal, which is outside the integer-restricted model. -/
def numStop (s : List Char) : Bool :=
  match s with
  | c :: _ => !(c = '.' || c = 'e' || c = 'E')
  | [] => true

/-- JSON unsigned integer part: `0`, or a nonzero digit followed by
digits (leading zeros terminate the token, as in Python's scanner). -/
def parseNatPart : List Char → Option (Nat × List Char)
  | [] => none
  | c :: rest =>
    if c = '0' then
      if numStop rest then some (0, rest) else none
    else if c.isDigit then
      let p := readDigits rest
      if numStop p.2 then some (digitsVal (c :: p.1), p.2) else none
    else none

/-- JSON integer with optional leading minus sign. -/
def parseIntPart (s : List Char) : Option (Int × List Char) :=
  if s.head? = some '-' then (parseNatPart s.tail).map (fun p => (-(p.1 : Int), p.2))
  else (parseNatPart s).map (fun p => ((p.1 : Int), p.2))

mutual

/-- One JSON value, fuel-bounded recursive descent mirroring Python's
`json` scanner (`scan_once`). -/
def parseVal : Nat → List Char → Option (Json × List Char)
  | 0, _ => none
  | fuel + 1, s =>
    if pyStartswith s (toL "null") then some (.null, s.drop 4)
    else if pyStartswith s (toL "true") then some (.bool true, s.drop 4)
    else if pyStartswith s (toL "false") then some (.bool false, s.drop 5)
    else
      match s with
      | [] => none
      | c :: r =>
        if c = '"' then (parseStrBody r).map (fun p => (.str p.1, p.2))
        else if c = '[' then
          (let r1 := skipJWs r
           if r1.head? = some ']' then some (.arr [], r1.tail)
           else (parseElems fuel r1).map (fun p => (.arr p.1, p.2)))
        else if c = lbrace then
          (let r1 := skipJWs r
           if r1.head? = some rbrace then some (.obj [], r1.tail)
           else (parseMembers fuel r1).map (fun p => (.obj (buildDict p.1), p.2)))
        else if c = '-' || c.isDigit then
          (parseIntPart (c :: r)).map (fun p => (.num p.1, p.2))
        else none

/-- Array elements after `[`, separated by commas, ended by `]`. -/
def parseElems : Nat → List Char → Option (List Json × List Char)
  | 0, _ => none
  | fuel + 1, s =>
    match parseVal fuel s with
    | none => none
    | some (v, r) =>
      let r1 := skipJWs r
      if r1.head? = some ',' then
        (match parseElems fuel (skipJWs r1.tail) with
         | none => none
         | some (vs, r3) => some (v :: vs, r3))
      else if r1.head? = some ']' then some ([v], r1.tail)
      else none

/-- Object members after `{`, each a quoted key, `:`, and a value. -/
def parseMembers : Nat → List Char → Option (List (List Char × Json) × List Char)
  | 0, _ => none
  | fuel + 1, s =>
    if s.head? = some '"' then
      match parseStrBody s.tail with
      | none => none
      | some (k, r1) =>
        let r2 := skipJWs r1
        if r2.head? = some ':' then
          match parseVal fuel (skipJWs r2.tail) with
          | none => none
          | some (v, r3) =>
            let r4 := skipJWs r3
            if r4.head? = some ',' then
              (match parseMembers fuel (skipJWs r4.tail) with
               | none => none
               | some (ms, r5) => some ((k, v) :: ms, r5))
            else if r4.head? = some rbrace then some ([(k, v)], r4.tail)
            else none
        else none
    else none

end

/-- Python `json.loads`: skip leading whitespace, read one value, and
require only whitespace to remain (`Extra data` otherwise).  `none`
models `json.JSONDecodeError`. -/
def jsonLoads (s : List Char) : Option Json :=
  match parseVal (2 * s.length + 2) (skipJWs s) with
  | some (v, rest) => if (skipJWs rest).isEmpty then some v else none
  | none => none

/-- The `box_2d` value rewrite of `parse_gemini_json_output`'s
post-processing: a non-empty list whose first element is a dict with
`ymin/xmin/ymax/xmax` keys becomes the flat array of those four values. -/
def flattenBox2D (box : Json) : Json :=
  match box with
  | .arr (first :: _) =>
    (match first with
     | .obj coords =>
       match pyGet coords (toL "ymin"), pyGet coords (toL "xmin"),
             pyGet coords (toL "ymax"), pyGet coords (toL "xmax") with
       | some a, some b, some c, some d => .arr [a, b, c, d]
       | _, _, _, _ => box
     | _ => box)
  | _ => box

/-- Per-item post-parse repair: applies the `box_2d` rewrite in place on
dict items that carry a `box_2d` field. -/
def repairItem (item : Json) : Json :=
  match item with
  | .obj kvs =>
    (match pyGet kvs (toL "box_2d") with
     | some box => .obj (pyInsert kvs (toL "box_2d") (flattenBox2D box))
     | none => .obj kvs)
  | _ => item

/-- Post-parse processing of `parse_gemini_json_output`: only parsed
lists are touched, each item independently. -/
def postRepair (parsed : Json) : Json :=
  match parsed with
  | .arr items => .arr (items.map repairItem)
  | v => v

/-- Match of the tail of the repair pattern `}(\s*)"label"` at the front
of the input: maximal whitespace munch followed by the literal
`"label"`; returns the whitespace and the remainder. -/
def matchWsLabel (s : List Char) : Option (List Char × List Char) :=
  let r := s.dropWhile isPyWs
  if pyStartswith r (toL "\"label\"") then some (s.takeWhile isPyWs, r.drop 7)
  else none

theorem matchWsLabel_len {s : List Char} {p : List Char × List Char}
    (h : matchWsLabel s = some p) : p.2.length ≤ s.length := by
  unfold matchWsLabel at h
  simp only at h
  split at h
  · cases h
    calc ((s.dropWhile isPyWs).drop 7).length
        ≤ (s.dropWhile isPyWs).length := (List.length_drop _ _) ▸ Nat.sub_le _ _
      _ ≤ s.length := (List.dropWhile_suffix isPyWs).sublist.length_le
  · cases h

/-- The comma repair `re.sub(r'}(\s*)"label"', r'},\1"label"', s)`:
insert a comma after every `}` that is followed (up to whitespace) by a
`"label"` key. -/
def fixMissingCommas (s : List Char) : List Char :=
  match s with
  | [] => []
  | c :: rest =>
    if c = rbrace then
      match h : matchWsLabel rest with
      | some p => rbrace :: ',' :: (p.1 ++ toL "\"label\"" ++ fixMissingCommas p.2)
      | none => rbrace :: fixMissingCommas rest
    else c :: fixMissingCommas rest
  termination_by s.length
  decreasing_by
  · have := matchWsLabel_len h
    simp only [List.length_cons]
    omega
  · simp
  · simp

/-- Remainder of `s` after the first occurrence of `pat`, if any. -/
def findSub (pat : List Char) : List Char → Option (List Char)
  | [] => if pat.isEmpty then some [] else none
  | c :: rest =>
    if pyStartswith (c :: rest) pat then some ((c :: rest).drop pat.length)
    else findSub pat rest

/-- First match of `key` followed by optional whitespace and a non-empty
digit run (one capture of the structure-repair coordinate regex);
returns the number and the remainder after its digits. -/
def findKeyNum (key : List Char) : Nat → List Char → Option (Nat × List Char)
  | 0, _ => none
  | fuel + 1, s =>
    match findSub key s with
    | none => none
    | some r =>
      let r1 := r.dropWhile isPyWs
      let p := readDigits r1
      if p.1.isEmpty then findKeyNum key fuel r else some (digitsVal p.1, p.2)

/-- All non-overlapping matches of the malformed-structure coordinate
regex `"ymin":\s*(\d+).*?"xmin":\s*(\d+).*?"ymax":\s*(\d+).*?"xmax":\s*(\d+)`
(DOTALL), each `.*?` being the nearest following match. -/
def findCoordsAux : Nat → List Char → List (Nat × Nat × Nat × Nat)
  | 0, _ => []
  | fuel + 1, s =>
    match findKeyNum (toL "\"ymin\":") (s.length + 1) s with
    | none => []
    | some (y1, r1) =>
      match findKeyNum (toL "\"xmin\":") (r1.length + 1) r1 with
      | none => []
      | some (x1, r2) =>
        match findKeyNum (toL "\"ymax\":") (r2.length + 1) r2 with
        | none => []
        | some (y2, r3) =>
          match findKeyNum (toL "\"xmax\":") (r3.length + 1) r3 with
          | none => []
          | some (x2, r4) => (y1, x1, y2, x2) :: findCoordsAux fuel r4

/-- Model of `re.findall(r'"ymin":\s*(\d+)...', s, re.DOTALL)` of the
structure-repair pass. -/
def findCoords (s : List Char) : List (Nat × Nat × Nat × Nat) :=
  findCoordsAux (s.length + 1) s

/-- All matches of the label regex `"label":\s*"([^"]+)"`. -/
def findLabelsAux : Nat → List Char → List (List Char)
  | 0, _ => []
  | fuel + 1, s =>
    match findSub (toL "\"label\":") s with
    | none => []
    | some r =>
      match r.dropWhile isPyWs with
      | '"' :: r2 =>
        (let body := r2.takeWhile (· ≠ '"')
         match r2.dropWhile (· ≠ '"') with
         | '"' :: r4 =>
           if body.isEmpty then findLabelsAux fuel r else body :: findLabelsAux fuel r4
         | _ => findLabelsAux fuel r)
      | _ => findLabelsAux fuel r

/-- Model of `re.findall(r'"label":\s*"([^"]+)"', s)` of the structure-repair pass. -/
def findLabels (s : List Char) : List (List Char) :=
  findLabelsAux (s.length + 1) s

/-- Items reconstructed by the structure-repair pass: coordinate tuples
paired with labels (extra coordinates without a label are dropped). -/
def buildItems (coords : List (Nat × Nat × Nat × Nat)) (labels : List (List Char)) :
    List Json :=
  (coords.zip labels).map (fun cl =>
    .obj [(toL "box_2d",
           .arr [.num cl.1.1, .num cl.1.2.1, .num cl.1.2.2.1, .num cl.1.2.2.2]),
          (toL "label", .str cl.2)])

/-- The single match of a greedy DOTALL pattern `l.*r` in `s`: from the
first `l` to the last `r`, when that span is non-trivial. -/
def greedyBracketMatch (l r : Char) (s : List Char) : Option (List Char) :=
  match s.findIdx? (· = l) with
  | none => none
  | some i =>
    match s.reverse.findIdx? (· = r) with
    | none => none
    | some rj =>
      let j := s.length - 1 - rj
      if i < j then some ((s.drop i).take (j - i + 1)) else none

/-- Candidate substrings from the patterns `\[.*\]` and `\{.*\}`
(greedy, DOTALL), in the order the code tries them. -/
def bracketCandidates (s : List Char) : List (List Char) :=
  (match greedyBracketMatch '[' ']' s with | some m => [m] | none => []) ++
  (match greedyBracketMatch lbrace rbrace s with | some m => [m] | none => [])

/-- Python exception kinds raised or caught by this layer. -/
inductive PyExc where
  | jsonDecodeError
  | typeError
  | valueError
  | keyError
  | attributeError
deriving DecidableEq

/-- Python `json.loads` in the exception model: the only exception it raises on
string input is `json.JSONDecodeError`. -/
def jsonLoadsE (s : List Char) : Except PyExc Json :=
  match jsonLoads s with
  | some v => .ok v
  | none => .error .jsonDecodeError

/-- The candidate loop of the bracket-pattern stage: each candidate gets
the comma repair and a parse attempt inside
`try: ... except json.JSONDecodeError: continue` — only the decode error
is caught, anything else propagates. -/
def tryCandidates : List (List Char) → Except PyExc (Option Json)
  | [] => .ok none
  | cand :: rest =>
    match jsonLoadsE (fixMissingCommas cand) with
    | .ok v => .ok (some (postRepair v))
    | .error .jsonDecodeError => tryCandidates rest
    | .error e => .error e

/-- Markdown code-fence removal of `parse_gemini_json_output`. -/
def stripFence (s : List Char) : List Char :=
  if pyStartswith s (toL "```json") then
    let c := s.drop 7
    if pyEndswith c (toL "```") then c.take (c.length - 3) else c
  else if pyStartswith s (toL "```") then
    let c := s.drop 3
    if pyEndswith c (toL "```") then c.take (c.length - 3) else c
  else s

/-- Embedding of `parse_gemini_json_output` from `utils/visualization_utils.py`:
empty-input guard, fence stripping, strict parse, comma repair,
structure reconstruction, bracket-pattern scan, `None` when exhausted.
Each `match` on `.error .jsonDecodeError` is the corresponding
`except json.JSONDecodeError` clause of the source. -/
def parse_gemini_json_output (s : List Char) : Except PyExc (Option Json) :=
  if s.isEmpty then .ok none
  else
    let cleaned := pyStrip (stripFence (pyStrip s))
    match jsonLoadsE cleaned with
    | .ok v => .ok (some (postRepair v))
    | .error .jsonDecodeError =>
      (match jsonLoadsE (fixMissingCommas cleaned) with
       | .ok v => .ok (some (postRepair v))
       | .error .jsonDecodeError =>
         let items := buildItems (findCoords cleaned) (findLabels cleaned)
         if items.isEmpty then tryCandidates (bracketCandidates cleaned)
         else .ok (some (.arr items))
       | .error e => .error e)
    | .error e => .error e

/-- Wrap a serialized JSON payload in a markdown ```` ```json ```` fence. -/
def fence (s : List Char) : List Char := toL "```json\n" ++ s ++ toL "\n```"

/-- Python values flowing through the overlay generators. Numbers are
modelled as rationals: Python's arithmetic on the coordinate payloads
(`/ 1000`, `* 100`, subtraction, `min`/`max`) is exact on them. -/
inductive PyVal where
  | none : PyVal
  | bool (b : Bool) : PyVal
  | num (q : ℚ) : PyVal
  | str (s : List Char) : PyVal
  | list (xs : List PyVal) : PyVal
  | dict (kvs : List (List Char × PyVal)) : PyVal

/-- Dict lookup on generator values (`item["k"]`, `"k" in item`). -/
def pvGet : List (List Char × PyVal) → List Char → Option PyVal
  | [], _ => Option.none
  | (k', v) :: rest, k => if k' = k then some v else pvGet rest k

/-- Values usable as numbers in Python arithmetic: numbers and booleans
(`True` counts as 1, `False` as 0); anything else raises `TypeError`. -/
def pyToNum : PyVal → Option ℚ
  | .num q => some q
  | .bool b => some (if b then 1 else 0)
  | _ => Option.none

/-- Python iteration/unpacking order of a value: lists yield their
elements, strings their characters, dicts their keys; other values are
not iterable (`len`/unpacking raises `TypeError`). -/
def pyIter : PyVal → Option (List PyVal)
  | .list xs => some xs
  | .str s => some (s.map (fun c => .str [c]))
  | .dict kvs => some (kvs.map (fun kv => .str kv.1))
  | _ => Option.none

/-- Python `int(x)` on a float/rational: truncation toward zero. -/
def pyInt (q : ℚ) : ℤ := if q < 0 then -((-q).floor) else q.floor

/-- A PIL image as the generators see it: its dimensions and the base64
payload `pil_to_base64` produces for it. -/
structure PILImage where
  width : ℚ
  height : ℚ
  b64 : List Char

/-- One point overlay `<div>`: CSS `left`/`top` percentages, the spliced
label, and the computed `z-index`. -/
structure PointElem where
  xPercent : ℚ
  yPercent : ℚ
  label : PyVal
  zIndex : Nat

/-- One entry of `point_details` in `generate_point_html` (the HTML text
is abstracted to its data). -/
inductive PointDetail where
  | ok (label : PyVal) (x y : ℚ)
  | procError (i : Nat)
  | invalidFormat (i : Nat)

/-- Loop body of `generate_point_html` for item `i` (0-based), including
its `try`/`except (TypeError, ValueError, KeyError)`: a caught exception
becomes a `procError` detail, a malformed item an `invalidFormat`
detail, and an item whose `point` has length ≠ 2 is silently skipped
(the source has no `else` for that test). -/
def processPointItem (i : Nat) (item : PyVal) : List PointElem × List PointDetail :=
  match item with
  | .dict kvs =>
    (match pvGet kvs (toL "point"), pvGet kvs (toL "label") with
     | some coords, some label =>
       (match pyIter coords with
        | Option.none => ([], [.procError i])
        | some [a, b] =>
          (match pyToNum a, pyToNum b with
           | some y, some x =>
             ([⟨x / 1000 * 100, y / 1000 * 100, label, 10 + i⟩], [.ok label x y])
           | _, _ => ([], [.procError i]))
        | some _ => ([], []))
     | _, _ => ([], [.invalidFormat i]))
  | _ => ([], [.invalidFormat i])

/-- Python `enumerate` over generator values. -/
def enumFrom (i : Nat) : List PyVal → List (Nat × PyVal)
  | [] => []
  | x :: xs => (i, x) :: enumFrom (i + 1) xs

/-- The artifact `generate_point_html` returns: the base image and the
overlay `<div>`s (HTML text abstracted to its structured content). -/
structure PointHtml where
  imageId : List Char
  imageB64 : List Char
  elems : List PointElem
  details : List PointDetail

/-- Embedding of `generate_point_html` from `utils/visualization_utils.py`: a
non-list `points_data` is replaced by `[]`; items are processed
independently.  (The unused `mirror_x` parameter is omitted.) -/
def generate_point_html (img : PILImage) (points_data : PyVal)
    (image_id : List Char) : PointHtml :=
  let data := match points_data with | .list xs => xs | _ => []
  let results := (enumFrom 0 data).map (fun p => processPointItem p.1 p.2)
  { imageId := image_id
    imageB64 := img.b64
    elems := (results.map Prod.fst).flatten
    details := (results.map Prod.snd).flatten }

/-- One 2D-box overlay `<div>`: CSS `top`/`left`/`width`/`height`
percentages, the spliced label, and the computed `z-index`. -/
structure BoxElem where
  topPercent : ℚ
  leftPercent : ℚ
  widthPercent : ℚ
  heightPercent : ℚ
  label : PyVal
  zIndex : Nat

/-- One entry of `box_details` in `generate_2d_box_html`. -/
inductive BoxDetail where
  | ok (label : PyVal) (xmin ymin xmax ymax : ℚ)
  | procError (i : Nat)
  | invalidFormat (i : Nat)

/-- Loop body of `generate_2d_box_html` for item `i`: coordinates are
always interpreted in the 0–1000 space (divided by 1000, times 100);
exceptions and malformed items as in `processPointItem`. -/
def processBoxItem (i : Nat) (item : PyVal) : List BoxElem × List BoxDetail :=
  match item with
  | .dict kvs =>
    (match pvGet kvs (toL "box_2d"), pvGet kvs (toL "label") with
     | some box, some label =>
       (match pyIter box with
        | Option.none => ([], [.procError i])
        | some [a, b, c, d] =>
          (match pyToNum a, pyToNum b, pyToNum c, pyToNum d with
           | some ymin, some xmin, some ymax, some xmax =>
             ([⟨ymin / 1000 * 100, xmin / 1000 * 100,
                (xmax - xmin) / 1000 * 100, (ymax - ymin) / 1000 * 100,
                label, 10 + i⟩],
              [.ok label xmin ymin xmax ymax])
           | _, _, _, _ => ([], [.procError i]))
        | some _ => ([], []))
     | _, _ => ([], [.invalidFormat i]))
  | _ => ([], [.invalidFormat i])

/-- The artifact `generate_2d_box_html` returns. -/
structure BoxHtml where
  imageId : List Char
  imageB64 : List Char
  elems : List BoxElem
  details : List BoxDetail

/-- Embedding of `generate_2d_box_html` from `utils/visualization_utils.py`: a
non-list `boxes_data` is replaced by `[]`; items are processed
independently. -/
def generate_2d_box_html (img : PILImage) (boxes_data : PyVal)
    (image_id : List Char) : BoxHtml :=
  let data := match boxes_data with | .list xs => xs | _ => []
  let results := (enumFrom 0 data).map (fun p => processBoxItem p.1 p.2)
  { imageId := image_id
    imageB64 := img.b64
    elems := (results.map Prod.fst).flatten
    details := (results.map Prod.snd).flatten }

mutual

/-- Parsed JSON values as the generator layer receives them
(integers embed into the generators' rational numbers). -/
def toPy : Json → PyVal
  | .null => .none
  | .bool b => .bool b
  | .num n => .num (n : ℚ)
  | .str s => .str s
  | .arr xs => .list (toPyList xs)
  | .obj kvs => .dict (toPyKvs kvs)

/-- Map `toPy` over a list of values. -/
def toPyList : List Json → List PyVal
  | [] => []
  | x :: xs => toPy x :: toPyList xs

/-- Map `toPy` over dict fields. -/
def toPyKvs : List (List Char × Json) → List (List Char × PyVal)
  | [] => []
  | (k, v) :: kvs => (k, toPy v) :: toPyKvs kvs

end

/-- Python `max(0.0, min(1.0, x))`. -/
def clamp01 (q : ℚ) : ℚ := max 0 (min 1 q)

/-- One projected 3D-box rectangle (`<rect>` plus its label `<text>`),
in percent units of the image. -/
structure SvgRect where
  x : ℚ
  y : ℚ
  w : ℚ
  h : ℚ
  label : PyVal

/-- One entry of `box_details_list` in `generate_3d_box_html`. -/
inductive Box3DDetail where
  | ok (label : PyVal) (params : List ℚ)
  | malformed (label : PyVal) (n : Nat)
  | procError (label : PyVal)

/-- Loop body of `generate_3d_box_html`: a `box_3d` of exactly 9
entries is projected (centers/sizes clamped into `[0,1]`, then
`x = x_center - x_size/2`, `y = y_center - y_size/2`, then the rectangle
is clamped into the viewport); any other length is reported as a
malformed record; a caught `TypeError`/`ValueError`/`KeyError` becomes an
error entry; a non-dict item or one missing `box_3d`/`label` is silently
passed over.  A record whose last five parameters are not numbers keeps
its rectangle (emitted before the detail line raises). -/
def process3DItem (item : PyVal) : List SvgRect × List Box3DDetail :=
  match item with
  | .dict kvs =>
    (match pvGet kvs (toL "box_3d"), pvGet kvs (toL "label") with
     | some params, some label =>
       (match pyIter params with
        | Option.none => ([], [.procError label])
        | some [xc, yc, zc, xsz, ysz, zsz, rl, pt, yw] =>
          (match pyToNum xc, pyToNum yc, pyToNum xsz, pyToNum ysz with
           | some qxc, some qyc, some qxs, some qys =>
             let nxc := clamp01 qxc
             let nyc := clamp01 qyc
             let nxs := clamp01 qxs
             let nys := clamp01 qys
             let svgX := (nxc - nxs / 2) * 100
             let svgY := (nyc - nys / 2) * 100
             let svgW := nxs * 100
             let svgH := nys * 100
             let svgX2 := max 0 (min (100 - svgW) svgX)
             let svgY2 := max 0 (min (100 - svgH) svgY)
             let svgW2 := max 0 (min (100 - svgX2) svgW)
             let svgH2 := max 0 (min (100 - svgY2) svgH)
             let rect : SvgRect := ⟨svgX2, svgY2, svgW2, svgH2, label⟩
             (match pyToNum zc, pyToNum zsz, pyToNum rl, pyToNum pt, pyToNum yw with
              | some qzc, some qzs, some qrl, some qpt, some qyw =>
                ([rect], [.ok label [qxc, qyc, qzc, qxs, qys, qzs, qrl, qpt, qyw]])
              | _, _, _, _, _ => ([rect], [.procError label]))
           | _, _, _, _ => ([], [.procError label]))
        | some other => ([], [.malformed label other.length]))
     | _, _ => ([], []))
  | _ => ([], [])

/-- The artifact `generate_3d_box_html` returns (image, `<svg>` overlay
rectangles, and the textual parameter list; raw-JSON echo omitted). -/
structure Box3DHtml where
  imageB64 : List Char
  rects : List SvgRect
  details : List Box3DDetail

/-- The per-item rendering loop of `generate_3d_box_html` over the
parsed list. -/
def render3DBoxes (items : List PyVal) : List SvgRect × List Box3DDetail :=
  let results := items.map process3DItem
  ((results.map Prod.fst).flatten, (results.map Prod.snd).flatten)

/-- Embedding of `generate_3d_box_html` from `utils/visualization_utils.py`: parses
the raw model text with `parse_gemini_json_output`, replaces a non-list
result by `[]`, and projects each item. -/
def generate_3d_box_html (img : PILImage) (boxes_json_str : List Char) :
    Except PyExc Box3DHtml :=
  match parse_gemini_json_output boxes_json_str with
  | .error e => .error e
  | .ok r =>
    let items := match r with | some (.arr xs) => toPyList xs | _ => []
    let rd := render3DBoxes items
    .ok { imageB64 := img.b64, rects := rd.1, details := rd.2 }

/-- One segmentation canvas overlay: pixel geometry of the bounding box,
the palette index `i % 10`, the label, and the cleaned base64 mask
payload handed to the canvas script. -/
structure SegElem where
  xPx : ℤ
  yPx : ℤ
  wPx : ℤ
  hPx : ℤ
  colorIdx : Nat
  label : PyVal
  maskB64 : List Char

/-- One entry of `mask_details` in `generate_segmentation_html`. -/
inductive SegDetail where
  | ok (label : PyVal) (xmin ymin xmax ymax : ℚ)
  | procError (i : Nat)
  | invalidFormat (i : Nat)

/-- Loop body of `generate_segmentation_html` for item `i`.  The
`except` clause catches only `TypeError`, `ValueError` and `KeyError`;
`mask_data.startswith(...)` on a non-string mask raises
`AttributeError`, which is not in that list and propagates out of the
function — hence the `Except` return type. -/
def processSegItem (w h : ℚ) (i : Nat) (item : PyVal) :
    Except PyExc (List SegElem × List SegDetail) :=
  match item with
  | .dict kvs =>
    (match pvGet kvs (toL "box_2d"), pvGet kvs (toL "mask"),
           pvGet kvs (toL "label") with
     | some box, some mask, some label =>
       (match pyIter box with
        | Option.none => .ok ([], [.procError i])
        | some [a, b, c, d] =>
          (match pyToNum a, pyToNum b, pyToNum c, pyToNum d with
           | some ymin, some xmin, some ymax, some xmax =>
             let xPx := pyInt (xmin / 1000 * w)
             let yPx := pyInt (ymin / 1000 * h)
             let wPx := max 1 (pyInt ((xmax - xmin) / 1000 * w))
             let hPx := max 1 (pyInt ((ymax - ymin) / 1000 * h))
             (match mask with
              | .str ms =>
                let clean :=
                  if pyStartswith ms (toL "data:image/png;base64,") then ms.drop 22
                  else if pyStartswith ms (toL "data:image/") then
                    match findSub (toL "base64,") ms with
                    | some r => r
                    | Option.none => ms
                  else ms
                .ok ([⟨xPx, yPx, wPx, hPx, i % 10, label, clean⟩],
                     [.ok label xmin ymin xmax ymax])
              | _ => .error .attributeError)
           | _, _, _, _ => .ok ([], [.procError i]))
        | some _ => .ok ([], []))
     | _, _, _ => .ok ([], [.invalidFormat i]))
  | _ => .ok ([], [.invalidFormat i])

/-- The artifact `generate_segmentation_html` returns when it returns. -/
structure SegHtml where
  imageB64 : List Char
  elems : List SegElem
  details : List SegDetail

/-- The item loop of `generate_segmentation_html`: an exception raised
by any item aborts the whole call. -/
def segFold (w h : ℚ) : Nat → List PyVal → Except PyExc (List SegElem × List SegDetail)
  | _, [] => .ok ([], [])
  | i, item :: rest =>
    match processSegItem w h i item with
    | .error e => .error e
    | .ok (es, ds) =>
      match segFold w h (i + 1) rest with
      | .error e => .error e
      | .ok p => .ok (es ++ p.1, ds ++ p.2)

/-- Embedding of `generate_segmentation_html` from `utils/visualization_utils.py`. -/
def generate_segmentation_html (img : PILImage) (segmentation_data : List PyVal) :
    Except PyExc SegHtml :=
  match segFold img.width img.height 0 segmentation_data with
  | .error e => .error e
  | .ok p => .ok { imageB64 := img.b64, elems := p.1, details := p.2 }

/-- Whether a generator value is a Python list. -/
def PyVal.isList : PyVal → Bool
  | .list _ => true
  | _ => false

/-- A well-formed point item `{"point": [y, x], "label": lbl}`. -/
def mkPointItem (y x : ℚ) (lbl : PyVal) : PyVal :=
  .dict [(toL "point", .list [.num y, .num x]), (toL "label", lbl)]

/-- A well-formed 2D-box item
`{"box_2d": [ymin, xmin, ymax, xmax], "label": lbl}`. -/
def mkBoxItem (ymin xmin ymax xmax : ℚ) (lbl : PyVal) : PyVal :=
  .dict [(toL "box_2d", .list [.num ymin, .num xmin, .num ymax, .num xmax]),
         (toL "label", lbl)]

/-- A 3D-box item `{"box_3d": box, "label": lbl}`. -/
def mk3DItem (box lbl : PyVal) : PyVal :=
  .dict [(toL "box_3d", box), (toL "label", lbl)]

/-- Coordinate-space detection as the specification words it (refinement
target only — this definition follows the spec, not the source): all
four values ≤ 1 means fraction-of-image, otherwise divide by the image
dimensions. -/
def specNormalizeBox2D (ymin xmin ymax xmax W H : ℚ) : ℚ × ℚ × ℚ × ℚ :=
  if ymin ≤ 1 ∧ xmin ≤ 1 ∧ ymax ≤ 1 ∧ xmax ≤ 1 then (ymin, xmin, ymax, xmax)
  else (ymin / H, xmin / W, ymax / H, xmax / W)

/-- The centered 50%-of-image fallback rectangle the specification
describes for degenerate boxes (refinement target only — follows the
spec, not the source): `(x, y, w, h)` in pixels. -/
def specFallbackRect (W H : ℚ) : ℚ × ℚ × ℚ × ℚ :=
  (W / 4, H / 4, W / 2, H / 2)

/-- The pixel rectangle `(x, y, w, h)` a rendered 2D-box overlay element
occupies on a `W × H` image (CSS percentages of the container). -/
def boxPixelRect (e : BoxElem) (W H : ℚ) : ℚ × ℚ × ℚ × ℚ :=
  (e.leftPercent / 100 * W, e.topPercent / 100 * H,
   e.widthPercent / 100 * W, e.heightPercent / 100 * H)

/-- C10: a non-list annotation-data argument to `generate_point_html` or
`generate_2d_box_html` is replaced by the empty list, and the function
returns the artifact with the base image and zero overlay elements
(and zero detail entries); no exception is raised — the embedding of
both functions is total. -/
theorem c10_nonlist_data_empty_overlay (img : PILImage) (d : PyVal)
    (pid bid : List Char) (h : d.isList = false) :
    generate_point_html img d pid
        = { imageId := pid, imageB64 := img.b64, elems := [], details := [] }
    ∧ generate_2d_box_html img d bid
        = { imageId := bid, imageB64 := img.b64, elems := [], details := [] } := by
  cases d <;>
    simp_all [PyVal.isList, generate_point_html, generate_2d_box_html, enumFrom]

/-- Witness for C10 at a concrete non-list input (`None`). -/
theorem c10_witness :
    PyVal.isList .none = false
    ∧ generate_point_html ⟨800, 600, toL "imgdata"⟩ .none (toL "p")
        = { imageId := toL "p", imageB64 := toL "imgdata", elems := [], details := [] }
    ∧ generate_2d_box_html ⟨800, 600, toL "imgdata"⟩ .none (toL "b")
        = { imageId := toL "b", imageB64 := toL "imgdata", elems := [], details := [] } :=
  ⟨rfl,
   (c10_nonlist_data_empty_overlay ⟨800, 600, toL "imgdata"⟩ .none (toL "p") (toL "b") rfl).1,
   (c10_nonlist_data_empty_overlay ⟨800, 600, toL "imgdata"⟩ .none (toL "p") (toL "b") rfl).2⟩

/-- C4: a point annotation with normalized coordinates `(y, x)` in
`[0, 1000]` on a `W × H` image is rendered at pixel position
`(x/1000·W, y/1000·H)`, which lies inside `[0, W] × [0, H]` (so
clamping to the image is the identity there). -/
theorem c4_point_projection (y x : ℚ) (lbl : PyVal) (img : PILImage)
    (pid : List Char) (hy0 : 0 ≤ y) (hy1 : y ≤ 1000) (hx0 : 0 ≤ x)
    (hx1 : x ≤ 1000) (hW : 0 ≤ img.width) (hH : 0 ≤ img.height) :
    (generate_point_html img (.list [mkPointItem y x lbl]) pid).elems.map
        (fun e => (e.xPercent / 100 * img.width, e.yPercent / 100 * img.height))
      = [(x / 1000 * img.width, y / 1000 * img.height)]
    ∧ 0 ≤ x / 1000 * img.width ∧ x / 1000 * img.width ≤ img.width
    ∧ 0 ≤ y / 1000 * img.height ∧ y / 1000 * img.height ≤ img.height := by
  have he : (generate_point_html img (.list [mkPointItem y x lbl]) pid).elems
      = [⟨x / 1000 * 100, y / 1000 * 100, lbl, 10⟩] := rfl
  refine ⟨?_, ?_, ?_, ?_, ?_⟩
  · rw [he]
    simp only [List.map_cons, List.map_nil, List.cons.injEq, and_true, Prod.mk.injEq]
    constructor <;> ring
  · exact mul_nonneg (div_nonneg hx0 (by norm_num)) hW
  · exact mul_le_of_le_one_left hW ((div_le_one (by norm_num)).mpr hx1)
  · exact mul_nonneg (div_nonneg hy0 (by norm_num)) hH
  · exact mul_le_of_le_one_left hH ((div_le_one (by norm_num)).mpr hy1)

/-- Witness for C4: the specification's point example, `(y=500, x=250)`
on a `400 × 200` image, lands at pixel `(100, 100)`. -/
theorem c4_witness :
    (generate_point_html ⟨400, 200, toL "img"⟩
        (.list [mkPointItem 500 250 (.str (toL "cat"))]) (toL "p")).elems.map
        (fun e => (e.xPercent / 100 * 400, e.yPercent / 100 * 200))
      = [((100 : ℚ), (100 : ℚ))] := by
  have h := c4_point_projection 500 250 (.str (toL "cat")) ⟨400, 200, toL "img"⟩
    (toL "p") (by norm_num) (by norm_num) (by norm_num) (by norm_num)
    (by norm_num) (by norm_num)
  have h1 := h.1
  norm_num at h1 ⊢
  exact h1

/-- Helper: the overlay element a single well-formed box item produces. -/
theorem box2d_single_elems (ymin xmin ymax xmax : ℚ) (lbl : PyVal)
    (img : PILImage) (bid : List Char) :
    (generate_2d_box_html img (.list [mkBoxItem ymin xmin ymax xmax lbl]) bid).elems
      = [⟨ymin / 1000 * 100, xmin / 1000 * 100,
          (xmax - xmin) / 1000 * 100, (ymax - ymin) / 1000 * 100, lbl, 10⟩] := rfl

/-- C2 (amended): `generate_2d_box_html` performs no coordinate-space
detection — the four box values are always interpreted in the 0–1000
space and divided by 1000 (times 100 for CSS percent), regardless of
their magnitude and of the image dimensions. -/
theorem c2_box_always_permille (ymin xmin ymax xmax : ℚ) (lbl : PyVal)
    (img : PILImage) (bid : List Char) :
    (generate_2d_box_html img (.list [mkBoxItem ymin xmin ymax xmax lbl]) bid).elems
      = [⟨ymin / 1000 * 100, xmin / 1000 * 100,
          (xmax - xmin) / 1000 * 100, (ymax - ymin) / 1000 * 100, lbl, 10⟩] :=
  box2d_single_elems ymin xmin ymax xmax lbl img bid

/-- C2 counterexample: the box `[1, 1, 1, 1]` has all four values ≤ 1,
so the claimed detection would treat it as a fraction-of-image box with
`xmin = 1` (the full image width); the code instead renders it at
fraction `1/1000` of the image, on any image (here `800 × 600`). -/
theorem c2_counterexample :
    (generate_2d_box_html ⟨800, 600, toL "img"⟩
        (.list [mkBoxItem 1 1 1 1 (.str (toL "x"))]) (toL "b")).elems.map
        (fun e => (e.topPercent / 100, e.leftPercent / 100))
      = [((1 : ℚ) / 1000, (1 : ℚ) / 1000)]
    ∧ specNormalizeBox2D 1 1 1 1 800 600 = (1, 1, 1, 1)
    ∧ ((1 : ℚ) / 1000, (1 : ℚ) / 1000) ≠ ((1 : ℚ), (1 : ℚ)) := by
  refine ⟨?_, ?_, by norm_num⟩
  · have he : (generate_2d_box_html ⟨800, 600, toL "img"⟩
        (.list [mkBoxItem 1 1 1 1 (.str (toL "x"))]) (toL "b")).elems
        = [⟨1 / 1000 * 100, 1 / 1000 * 100, 0 / 1000 * 100, 0 / 1000 * 100,
            .str (toL "x"), 10⟩] := by
      have := box2d_single_elems 1 1 1 1 (.str (toL "x")) ⟨800, 600, toL "img"⟩ (toL "b")
      rw [this]
      norm_num
    rw [he]
    norm_num
  · simp [specNormalizeBox2D]

/-- C3 (amended): `generate_2d_box_html` enforces no minimum rendered
size and substitutes no fallback box — even a box whose projected pixel
width and height are both below 4 px is rendered at its exact scaled
geometry. -/
theorem c3_no_minimum_size (ymin xmin ymax xmax : ℚ) (lbl : PyVal)
    (img : PILImage) (bid : List Char)
    (hw : (xmax - xmin) / 1000 * img.width < 4)
    (hh : (ymax - ymin) / 1000 * img.height < 4) :
    (generate_2d_box_html img (.list [mkBoxItem ymin xmin ymax xmax lbl]) bid).elems.map
        (fun e => boxPixelRect e img.width img.height)
      = [(xmin / 1000 * img.width, ymin / 1000 * img.height,
          (xmax - xmin) / 1000 * img.width, (ymax - ymin) / 1000 * img.height)] := by
  have he := box2d_single_elems ymin xmin ymax xmax lbl img bid
  rw [he]
  simp only [List.map_cons, List.map_nil, boxPixelRect, List.cons.injEq, and_true,
    Prod.mk.injEq]
  refine ⟨?_, ?_, ?_, ?_⟩ <;> ring

/-- Witness for C3 (amended) at the box `[0, 0, 1, 1]` on an `800 × 600`
image, whose projected size is `0.8 × 0.6` px. -/
theorem c3_witness :
    (generate_2d_box_html ⟨800, 600, toL "img"⟩
        (.list [mkBoxItem 0 0 1 1 (.str (toL "x"))]) (toL "b")).elems.map
        (fun e => boxPixelRect e 800 600)
      = [((0 : ℚ), (0 : ℚ), (4 : ℚ) / 5, (3 : ℚ) / 5)] := by
  have h := c3_no_minimum_size 0 0 1 1 (.str (toL "x")) ⟨800, 600, toL "img"⟩ (toL "b")
    (by norm_num) (by norm_num)
  norm_num at h ⊢
  exact h

/-- C3 counterexample: that same sub-4-px box is not replaced by the
centered fallback `(x=200, y=150, w=400, h=300)` the claim promises for
an `800 × 600` image. -/
theorem c3_counterexample :
    specFallbackRect 800 600 = (200, 150, 400, 300)
    ∧ (generate_2d_box_html ⟨800, 600, toL "img"⟩
        (.list [mkBoxItem 0 0 1 1 (.str (toL "x"))]) (toL "b")).elems.map
        (fun e => boxPixelRect e 800 600)
      ≠ [((200 : ℚ), (150 : ℚ), (400 : ℚ), (300 : ℚ))] := by
  constructor
  · norm_num [specFallbackRect]
  · rw [box2d_single_elems]
    simp only [List.map_cons, List.map_nil, boxPixelRect]
    norm_num

/-- C5 (amended): no swap-and-clamp is applied to 2D boxes — a box whose
raw `xmax` is smaller than its `xmin` is rendered with a negative CSS
width of `(xmax − xmin)/10` percent. -/
theorem c5_negative_width (ymin xmin ymax xmax : ℚ) (lbl : PyVal)
    (img : PILImage) (bid : List Char) (hx : xmax < xmin) :
    (generate_2d_box_html img (.list [mkBoxItem ymin xmin ymax xmax lbl]) bid).elems.map
        (fun e => e.widthPercent)
      = [(xmax - xmin) / 1000 * 100]
    ∧ (xmax - xmin) / 1000 * 100 < 0 := by
  constructor
  · rw [box2d_single_elems]
    simp
  · have : xmax - xmin < 0 := by linarith
    nlinarith

/-- C5 counterexample: the raw box `[0, 500, 100, 100]`
(`xmin = 500 > xmax = 100`) produces a rendered overlay element with
width `−40%` — a negative-width box reaches rendering. -/
theorem c5_counterexample :
    (generate_2d_box_html ⟨800, 600, toL "img"⟩
        (.list [mkBoxItem 0 500 100 100 (.str (toL "x"))]) (toL "b")).elems.map
        (fun e => e.widthPercent)
      = [(-40 : ℚ)]
    ∧ ((-40 : ℚ)) < 0 := by
  constructor
  · rw [box2d_single_elems]
    norm_num
  · norm_num

/-- Witness for C5 (amended), applied at the same concrete box. -/
theorem c5_witness :
    (generate_2d_box_html ⟨800, 600, toL "img"⟩
        (.list [mkBoxItem 0 500 100 100 (.str (toL "x"))]) (toL "b")).elems.map
        (fun e => e.widthPercent)
      = [((100 : ℚ) - 500) / 1000 * 100] := by
  exact (c5_negative_width 0 500 100 100 (.str (toL "x")) ⟨800, 600, toL "img"⟩
    (toL "b") (by norm_num)).1

/-- C9: 3D-box handling of `generate_3d_box_html`.  (i) An item whose
`box_3d` holds exactly 9 numbers is projected: centers and sizes are
clamped into `[0,1]` first, the rectangle is derived centered
(`x = x_center − x_size/2`, `y = y_center − y_size/2`, in percent), and
then bounded to the viewport.  (ii) A `box_3d` of any other length is
reported as a malformed record (with its length) and yields no
rectangle.  (iii) The per-item results are concatenated independently,
so a malformed item never aborts the projection of the other items. -/
theorem c9_box3d_projection (xc yc zc xsz ysz zsz rl pt yw : ℚ)
    (lbl lbl2 item : PyVal) (els pre post : List PyVal)
    (hn : els.length ≠ 9) :
    (process3DItem (mk3DItem (.list [.num xc, .num yc, .num zc, .num xsz,
          .num ysz, .num zsz, .num rl, .num pt, .num yw]) lbl)
      = ([⟨max 0 (min (100 - clamp01 xsz * 100) ((clamp01 xc - clamp01 xsz / 2) * 100)),
          max 0 (min (100 - clamp01 ysz * 100) ((clamp01 yc - clamp01 ysz / 2) * 100)),
          max 0 (min (100 - max 0 (min (100 - clamp01 xsz * 100)
            ((clamp01 xc - clamp01 xsz / 2) * 100))) (clamp01 xsz * 100)),
          max 0 (min (100 - max 0 (min (100 - clamp01 ysz * 100)
            ((clamp01 yc - clamp01 ysz / 2) * 100))) (clamp01 ysz * 100)),
          lbl⟩],
         [.ok lbl [xc, yc, zc, xsz, ysz, zsz, rl, pt, yw]]))
    ∧ process3DItem (mk3DItem (.list els) lbl2) = ([], [.malformed lbl2 els.length])
    ∧ render3DBoxes (pre ++ item :: post)
      = ((render3DBoxes pre).1 ++ (process3DItem item).1 ++ (render3DBoxes post).1,
         (render3DBoxes pre).2 ++ (process3DItem item).2 ++ (render3DBoxes post).2) := by
  refine ⟨rfl, ?_, ?_⟩
  · rcases els with _ | ⟨a1, _ | ⟨a2, _ | ⟨a3, _ | ⟨a4, _ | ⟨a5, _ | ⟨a6, _ | ⟨a7,
      _ | ⟨a8, _ | ⟨a9, _ | ⟨a10, rest⟩⟩⟩⟩⟩⟩⟩⟩⟩⟩ <;>
      first
        | rfl
        | exact absurd rfl hn
  · simp [render3DBoxes, List.map_append, List.flatten_append]

/-- Witness for C9: an out-of-range center (`x_center = 2`) is clamped
to 1 before the derivation, and a 1-entry `box_3d` in a neighbour item
is reported as malformed without stopping the projection. -/
theorem c9_witness :
    process3DItem (mk3DItem (.list [.num 2, .num (1/2), .num 0, .num (1/2),
          .num (1/2), .num (1/2), .num 0, .num 0, .num 0]) (.str (toL "car")))
      = ([⟨50, 25, 50, 50, .str (toL "car")⟩],
         [.ok (.str (toL "car")) [2, 1/2, 0, 1/2, 1/2, 1/2, 0, 0, 0]])
    ∧ process3DItem (mk3DItem (.list [.num 1]) (.str (toL "bad")))
      = ([], [.malformed (.str (toL "bad")) 1])
    ∧ render3DBoxes [mk3DItem (.list [.num 1]) (.str (toL "bad")),
          mk3DItem (.list [.num 2, .num (1/2), .num 0, .num (1/2),
            .num (1/2), .num (1/2), .num 0, .num 0, .num 0]) (.str (toL "car"))]
      = ([⟨50, 25, 50, 50, .str (toL "car")⟩],
         [.malformed (.str (toL "bad")) 1,
          .ok (.str (toL "car")) [2, 1/2, 0, 1/2, 1/2, 1/2, 0, 0, 0]]) := by
  have h := c9_box3d_projection 2 (1/2) 0 (1/2) (1/2) (1/2) 0 0 0
    (.str (toL "car")) (.str (toL "bad"))
    (mk3DItem (.list [.num 1]) (.str (toL "bad")))
    [.num 1] []
    [mk3DItem (.list [.num 2, .num (1/2), .num 0, .num (1/2),
      .num (1/2), .num (1/2), .num 0, .num 0, .num 0]) (.str (toL "car"))]
    (by norm_num)
  refine ⟨?_, h.2.1, ?_⟩
  · rw [h.1]
    simp only [clamp01, min_def, max_def]
    norm_num
  · simp only [render3DBoxes, List.map_cons, List.map_nil,
      List.flatten_cons, List.flatten_nil, List.append_nil]
    rw [h.1, h.2.1]
    norm_num [clamp01, min_def, max_def]

/-- C7: a parsed list item whose `box_2d` field is a list headed by an
object carrying `ymin/xmin/ymax/xmax` keys is rewritten in place by the
post-parse repair to the flat array `[ymin, xmin, ymax, xmax]`; the
other items are repaired independently. -/
theorem c7_box2d_repair (kvs coords : List (List Char × Json))
    (restB : List Json) (a b c d : Json) (pre post : List Json)
    (hbox : pyGet kvs (toL "box_2d") = some (.arr (.obj coords :: restB)))
    (hy : pyGet coords (toL "ymin") = some a)
    (hx : pyGet coords (toL "xmin") = some b)
    (hy2 : pyGet coords (toL "ymax") = some c)
    (hx2 : pyGet coords (toL "xmax") = some d) :
    postRepair (.arr (pre ++ .obj kvs :: post))
      = .arr (pre.map repairItem
          ++ .obj (pyInsert kvs (toL "box_2d") (.arr [a, b, c, d]))
            :: post.map repairItem) := by
  simp [postRepair, List.map_append, List.map_cons, repairItem, hbox,
    flattenBox2D, hy, hx, hy2, hx2]

/-- Witness for C7: the specification's example item
`{"box_2d": [{"ymin": 1, "xmin": 2, "ymax": 3, "xmax": 4}], "label": "dog"}`
becomes `{"box_2d": [1, 2, 3, 4], "label": "dog"}`. -/
theorem c7_witness :
    postRepair (.arr [.obj [(toL "box_2d",
        .arr [.obj [(toL "ymin", .num 1), (toL "xmin", .num 2),
                    (toL "ymax", .num 3), (toL "xmax", .num 4)]]),
        (toL "label", .str (toL "dog"))]])
      = .arr [.obj [(toL "box_2d", .arr [.num 1, .num 2, .num 3, .num 4]),
                    (toL "label", .str (toL "dog"))]] := by
  have h := c7_box2d_repair
    [(toL "box_2d",
      .arr [.obj [(toL "ymin", .num 1), (toL "xmin", .num 2),
                  (toL "ymax", .num 3), (toL "xmax", .num 4)]]),
     (toL "label", .str (toL "dog"))]
    [(toL "ymin", .num 1), (toL "xmin", .num 2),
     (toL "ymax", .num 3), (toL "xmax", .num 4)]
    [] (.num 1) (.num 2) (.num 3) (.num 4) [] []
    rfl rfl rfl rfl rfl
  exact h.trans rfl

/-- A segmentation item whose mask is a polygon list (the very shape the
application's own prompt specification requests from the model). -/
def polyMaskItem : PyVal :=
  .dict [(toL "box_2d", .list [.num 0, .num 0, .num 100, .num 100]),
         (toL "mask", .list [.list [.num 0, .num 0, .num 100, .num 0,
                                    .num 100, .num 100]]),
         (toL "label", .str (toL "sky"))]

/-- A segmentation item with a base64 raster mask, as in the repo's own
segmentation test. -/
def goodMaskItem : PyVal :=
  .dict [(toL "box_2d", .list [.num 50, .num 50, .num 150, .num 150]),
         (toL "mask", .str (toL "iVBORw0KGgo")),
         (toL "label", .str (toL "obj1"))]

/-- C6 evaluation: `generate_segmentation_html` does not skip a
polygon-list mask — `mask_data.startswith(...)` raises
`AttributeError`, which the `except (TypeError, ValueError, KeyError)`
clause does not catch, so the whole call aborts and even the preceding
valid raster item is lost. -/
theorem c6_polygon_mask_raises :
    generate_segmentation_html ⟨200, 200, toL "img"⟩ [goodMaskItem, polyMaskItem]
      = .error .attributeError := rfl

/-- Values `parse_gemini_json_output` may hand back that are neither a
dict nor a list. -/
def jsonIsDictOrList : Json → Bool
  | .arr _ => true
  | .obj _ => true
  | _ => false

theorem jsonLoadsE_cases (t : List Char) :
    (∃ v, jsonLoadsE t = .ok v) ∨ jsonLoadsE t = .error .jsonDecodeError := by
  unfold jsonLoadsE
  cases jsonLoads t with
  | none => exact Or.inr rfl
  | some v => exact Or.inl ⟨v, rfl⟩

theorem tryCandidates_total (cs : List (List Char)) :
    ∃ r, tryCandidates cs = .ok r := by
  induction cs with
  | nil => exact ⟨none, rfl⟩
  | cons c rest ih =>
    rcases jsonLoadsE_cases (fixMissingCommas c) with ⟨v, hv⟩ | hv
    · exact ⟨some (postRepair v), by simp [tryCandidates, hv]⟩
    · obtain ⟨r, hr⟩ := ih
      exact ⟨r, by simp [tryCandidates, hv, hr]⟩

/-- C1 (amended): `parse_gemini_json_output` is total on strings — for
every input it returns a parsed JSON value (of any JSON type) or `None`;
no exception escapes, because the only exception its string processing
raises is `json.JSONDecodeError` and every parse attempt is wrapped in a
handler for exactly that error. -/
theorem c1_parser_total (s : List Char) :
    ∃ r, parse_gemini_json_output s = .ok r := by
  unfold parse_gemini_json_output
  by_cases h : s.isEmpty
  · exact ⟨none, by simp [h]⟩
  · rcases jsonLoadsE_cases (pyStrip (stripFence (pyStrip s))) with ⟨v, hv⟩ | hv
    · exact ⟨some (postRepair v), by simp [h, hv]⟩
    · rcases jsonLoadsE_cases
          (fixMissingCommas (pyStrip (stripFence (pyStrip s)))) with ⟨v2, hv2⟩ | hv2
      · exact ⟨some (postRepair v2), by simp [h, hv, hv2]⟩
      · by_cases hi : (buildItems
            (findCoords (pyStrip (stripFence (pyStrip s))))
            (findLabels (pyStrip (stripFence (pyStrip s))))).isEmpty
        · obtain ⟨r, hr⟩ := tryCandidates_total
            (bracketCandidates (pyStrip (stripFence (pyStrip s))))
          exact ⟨r, by simp [h, hv, hv2, hi, hr]⟩
        · exact ⟨some (.arr (buildItems
            (findCoords (pyStrip (stripFence (pyStrip s))))
            (findLabels (pyStrip (stripFence (pyStrip s)))))),
            by simp [h, hv, hv2, hi]⟩

/-- C1 counterexample: the input `"5"` parses without error to the
number 5, which is neither a dict nor a list nor `None` — the function's
range is not limited to dict/list/`None`. -/
theorem c1_counterexample :
    parse_gemini_json_output (toL "5") = .ok (some (.num 5))
    ∧ jsonIsDictOrList (.num 5) = false :=
  ⟨rfl, rfl⟩

/-! ### Round-trip infrastructure for the fenced-parse property -/

/-- Characters allowed to follow a serialized value without extending
its last token: the empty remainder, or a head that is neither a digit
nor a float continuation. -/
def restOk (s : List Char) : Bool :=
  match s with
  | [] => true
  | c :: _ => !(c.isDigit || c = '.' || c = 'e' || c = 'E')

mutual

/-- Well-formed JSON values: every object has duplicate-free keys
(Python dicts cannot hold duplicates, so these are exactly the values
`json.dumps` can receive). -/
def wfB : Json → Bool
  | .null => true
  | .bool _ => true
  | .num _ => true
  | .str _ => true
  | .arr xs => wfArrB xs
  | .obj kvs => decide ((kvs.map Prod.fst).Nodup) && wfObjB kvs

/-- Conjunction of `wfB` over array elements. -/
def wfArrB : List Json → Bool
  | [] => true
  | x :: xs => wfB x && wfArrB xs

/-- Conjunction of `wfB` over object values. -/
def wfObjB : List (List Char × Json) → Bool
  | [] => true
  | kv :: kvs => wfB kv.2 && wfObjB kvs

end

theorem digitChar_props (r : Nat) (h : r < 10) :
    (digitChar r).isDigit = true ∧ (digitChar r).toNat = 48 + r
    ∧ isJWs (digitChar r) = false ∧ isPyWs (digitChar r) = false
    ∧ digitChar r ≠ 'n' ∧ digitChar r ≠ 't' ∧ digitChar r ≠ 'f'
    ∧ digitChar r ≠ '"' ∧ digitChar r ≠ '[' ∧ digitChar r ≠ lbrace
    ∧ digitChar r ≠ ']' ∧ digitChar r ≠ rbrace := by
  interval_cases r <;> exact ⟨rfl, rfl, rfl, rfl, by decide, by decide, by decide,
    by decide, by decide, by decide, by decide, by decide⟩

theorem digitChar_ne_zero (r : Nat) (h1 : 1 ≤ r) (h10 : r < 10) :
    digitChar r ≠ '0' := by
  interval_cases r <;> decide

theorem natToDigits_all_digits (n : Nat) :
    ∀ c ∈ natToDigits n, c.isDigit = true := by
  induction n using Nat.strong_induction_on with
  | _ n ih =>
    rw [natToDigits_unfold]
    split
    · intro c hc
      simp only [List.mem_singleton] at hc
      subst hc
      exact (digitChar_props n (by omega)).1
    · intro c hc
      rcases List.mem_append.mp hc with h | h
      · exact ih (n / 10) (Nat.div_lt_self (by omega) (by omega)) c h
      · simp only [List.mem_singleton] at h
        subst h
        exact (digitChar_props (n % 10) (Nat.mod_lt _ (by omega))).1

theorem natToDigits_cons (n : Nat) :
    ∃ r t, natToDigits n = digitChar r :: t ∧ r < 10 ∧ (1 ≤ n → 1 ≤ r) := by
  induction n using Nat.strong_induction_on with
  | _ n ih =>
    rw [natToDigits_unfold]
    split
    · exact ⟨n, [], rfl, by omega, fun h => h⟩
    · obtain ⟨r, t, ht, hr, hpos⟩ := ih (n / 10) (Nat.div_lt_self (by omega) (by omega))
      exact ⟨r, t ++ [digitChar (n % 10)], by rw [ht]; rfl, hr,
        fun _ => hpos (by omega)⟩

theorem natToDigits_last (n : Nat) :
    ∃ r t, natToDigits n = t ++ [digitChar r] ∧ r < 10 := by
  rw [natToDigits_unfold]
  split
  · exact ⟨n, [], rfl, by omega⟩
  · exact ⟨n % 10, natToDigits (n / 10), rfl, Nat.mod_lt _ (by omega)⟩

theorem digitsVal_natToDigits (n : Nat) : digitsVal (natToDigits n) = n := by
  induction n using Nat.strong_induction_on with
  | _ n ih =>
    rw [natToDigits_unfold]
    split
    · simp [digitsVal, (digitChar_props n (by omega)).2.1]
    · have hrec := ih (n / 10) (Nat.div_lt_self (by omega) (by omega))
      simp only [digitsVal, List.foldl_append, List.foldl_cons, List.foldl_nil]
      simp only [digitsVal] at hrec
      rw [hrec, (digitChar_props (n % 10) (Nat.mod_lt _ (by omega))).2.1]
      omega

theorem readDigits_restOk (rest : List Char) (h : restOk rest = true) :
    readDigits rest = ([], rest) := by
  cases rest with
  | nil => rfl
  | cons c t =>
    simp only [restOk, Bool.not_eq_true', Bool.or_eq_false_iff] at h
    simp [readDigits, h.1]

theorem readDigits_digits_append (ds rest : List Char)
    (hd : ∀ c ∈ ds, c.isDigit = true) (h : restOk rest = true) :
    readDigits (ds ++ rest) = (ds, rest) := by
  induction ds with
  | nil => simpa using readDigits_restOk rest h
  | cons c t ih =>
    have hc := hd c (by simp)
    simp only [List.cons_append, readDigits, hc, if_true, List.append_eq]
    rw [ih (fun c hc => hd c (by simp [hc]))]

theorem restOk_numStop (rest : List Char) (h : restOk rest = true) :
    numStop rest = true := by
  cases rest with
  | nil => rfl
  | cons c t =>
    simp only [restOk, Bool.not_eq_true', Bool.or_eq_false_iff] at h
    simp only [numStop, Bool.not_eq_true', Bool.or_eq_false_iff]
    exact ⟨⟨h.1.1.2, h.1.2⟩, h.2⟩

theorem parseNatPart_dump (n : Nat) (rest : List Char) (h : restOk rest = true) :
    parseNatPart (natToDigits n ++ rest) = some (n, rest) := by
  by_cases h10 : n < 10
  · rw [natToDigits_unfold, if_pos h10]
    by_cases h0 : n = 0
    · subst h0
      simp [parseNatPart, digitChar, restOk_numStop rest h]
    · have hd := digitChar_props n h10
      simp only [List.cons_append, List.nil_append, parseNatPart,
        digitChar_ne_zero n (by omega) h10, if_false, hd.1, if_true]
      rw [readDigits_restOk rest h]
      simp [restOk_numStop rest h, digitsVal, hd.2.1]
  · obtain ⟨r, t, ht, hr, hpos⟩ := natToDigits_cons n
    have hall := natToDigits_all_digits n
    rw [ht] at hall ⊢
    have hdp := digitChar_props r hr
    simp only [List.cons_append, parseNatPart,
      digitChar_ne_zero r (hpos (by omega)) hr, if_false, hdp.1, if_true]
    rw [readDigits_digits_append t rest (fun c hc => hall c (by simp [hc])) h]
    simp only [restOk_numStop rest h, if_true]
    have : digitsVal (digitChar r :: t) = n := by
      rw [← ht]; exact digitsVal_natToDigits n
    rw [this]

theorem parseIntPart_dump (n : Int) (rest : List Char) (h : restOk rest = true) :
    parseIntPart (dumpInt n ++ rest) = some (n, rest) := by
  by_cases hneg : n < 0
  · rw [dumpInt, if_pos hneg]
    simp only [List.cons_append, parseIntPart, List.head?_cons, List.tail_cons,
      Option.some.injEq, if_true]
    rw [parseNatPart_dump _ rest h]
    simp only [Option.map_some', Option.some.injEq, Prod.mk.injEq, and_true]
    omega
  · rw [dumpInt, if_neg hneg]
    obtain ⟨r, t, ht, hr, _⟩ := natToDigits_cons n.toNat
    rw [ht]
    have hdp := digitChar_props r hr
    have hne : digitChar r ≠ '-' := by interval_cases r <;> decide
    simp only [List.cons_append, parseIntPart, List.head?_cons, Option.some.injEq,
      hne, if_false]
    rw [← List.cons_append, ← ht, parseNatPart_dump _ rest h]
    simp only [Option.map_some', Option.some.injEq, Prod.mk.injEq, and_true]
    omega

theorem hexVal_hexDigit (r : Nat) (h : r < 16) : hexVal (hexDigit r) = some r := by
  interval_cases r <;> decide

theorem encodeStr_cons (c : Char) (s : List Char) :
    encodeStr (c :: s) = encodeChar c ++ encodeStr s := by
  simp [encodeStr]

theorem parseStrBody_encode (s rest : List Char) :
    parseStrBody (encodeStr s ++ ('"' :: rest)) = some (s, rest) := by
  have esc : ∀ (e : Char) (l : List Char),
      (if e = '"' then cons1 '"' (parseStrBody l)
       else if e = '\\' then cons1 '\\' (parseStrBody l)
       else if e = '/' then cons1 '/' (parseStrBody l)
       else if e = 'n' then cons1 '\n' (parseStrBody l)
       else if e = 't' then cons1 '\t' (parseStrBody l)
       else if e = 'r' then cons1 '\r' (parseStrBody l)
       else if e = 'b' then cons1 '\x08' (parseStrBody l)
       else if e = 'f' then cons1 '\x0c' (parseStrBody l)
       else if e = 'u' then
         (match l with
          | h1 :: h2 :: h3 :: h4 :: r' =>
            (match hexVal h1, hexVal h2, hexVal h3, hexVal h4 with
             | some a, some b, some c', some d =>
               if (((a * 16 + b) * 16 + c') * 16 + d).isValidChar then
                 cons1 (Char.ofNat (((a * 16 + b) * 16 + c') * 16 + d)) (parseStrBody r')
               else none
             | _, _, _, _ => none)
          | _ => none)
       else none) = parseStrBody ('\\' :: e :: l) := by
    intro e l
    conv_rhs => rw [parseStrBody.eq_def]
    simp
  induction s with
  | nil =>
    rw [show encodeStr [] ++ ('"' :: rest) = '"' :: rest from rfl, parseStrBody.eq_def]
    simp
  | cons c t ih =>
    rw [encodeStr_cons, List.append_assoc]
    by_cases h1 : c = '"'
    · subst h1
      rw [show encodeChar '"' ++ (encodeStr t ++ '"' :: rest)
          = '\\' :: '"' :: (encodeStr t ++ '"' :: rest) from rfl,
        ← esc '"', if_pos rfl, ih]
      rfl
    · by_cases h2 : c = '\\'
      · subst h2
        rw [show encodeChar '\\' ++ (encodeStr t ++ '"' :: rest)
            = '\\' :: '\\' :: (encodeStr t ++ '"' :: rest) from rfl,
          ← esc '\\']
        rw [if_neg (by decide), if_pos rfl, ih]
        rfl
      · by_cases h3 : c = '\n'
        · subst h3
          rw [show encodeChar '\n' ++ (encodeStr t ++ '"' :: rest)
              = '\\' :: 'n' :: (encodeStr t ++ '"' :: rest) from rfl,
            ← esc 'n']
          rw [if_neg (by decide), if_neg (by decide), if_neg (by decide),
            if_pos rfl, ih]
          rfl
        · by_cases h4 : c = '\t'
          · subst h4
            rw [show encodeChar '\t' ++ (encodeStr t ++ '"' :: rest)
                = '\\' :: 't' :: (encodeStr t ++ '"' :: rest) from rfl,
              ← esc 't']
            rw [if_neg (by decide), if_neg (by decide), if_neg (by decide),
              if_neg (by decide), if_pos rfl, ih]
            rfl
          · by_cases h5 : c = '\r'
            · subst h5
              rw [show encodeChar '\r' ++ (encodeStr t ++ '"' :: rest)
                  = '\\' :: 'r' :: (encodeStr t ++ '"' :: rest) from rfl,
                ← esc 'r']
              rw [if_neg (by decide), if_neg (by decide), if_neg (by decide),
                if_neg (by decide), if_neg (by decide), if_pos rfl, ih]
              rfl
            · by_cases h6 : c = '\x08'
              · subst h6
                rw [show encodeChar '\x08' ++ (encodeStr t ++ '"' :: rest)
                    = '\\' :: 'b' :: (encodeStr t ++ '"' :: rest) from rfl,
                  ← esc 'b']
                rw [if_neg (by decide), if_neg (by decide), if_neg (by decide),
                  if_neg (by decide), if_neg (by decide), if_neg (by decide),
                  if_pos rfl, ih]
                rfl
              · by_cases h7 : c = '\x0c'
                · subst h7
                  rw [show encodeChar '\x0c' ++ (encodeStr t ++ '"' :: rest)
                      = '\\' :: 'f' :: (encodeStr t ++ '"' :: rest) from rfl,
                    ← esc 'f']
                  rw [if_neg (by decide), if_neg (by decide), if_neg (by decide),
                    if_neg (by decide), if_neg (by decide), if_neg (by decide),
                    if_neg (by decide), if_pos rfl, ih]
                  rfl
                · by_cases h8 : c.toNat < 32
                  · rw [encodeChar, if_neg h1, if_neg h2, if_neg h3, if_neg h4,
                      if_neg h5, if_neg h6, if_neg h7, if_pos h8]
                    have hhi := hexVal_hexDigit (c.toNat / 16) (by omega)
                    have hlo := hexVal_hexDigit (c.toNat % 16) (by omega)
                    have hvalid : (c.toNat).isValidChar := Or.inl (by omega)
                    rw [show ('\\' :: 'u' :: '0' :: '0' :: hexDigit (c.toNat / 16)
                          :: hexDigit (c.toNat % 16) :: []) ++ (encodeStr t ++ '"' :: rest)
                        = '\\' :: 'u' :: ('0' :: '0' :: hexDigit (c.toNat / 16)
                          :: hexDigit (c.toNat % 16) :: (encodeStr t ++ '"' :: rest))
                        from rfl,
                      ← esc 'u']
                    rw [if_neg (by decide), if_neg (by decide), if_neg (by decide),
                      if_neg (by decide), if_neg (by decide), if_neg (by decide),
                      if_neg (by decide), if_neg (by decide), if_pos rfl]
                    have hv : ((0 * 16 + 0) * 16 + c.toNat / 16) * 16 + c.toNat % 16
                        = c.toNat := by omega
                    simp only [show hexVal '0' = some 0 from rfl, hhi, hlo, hv]
                    rw [if_pos hvalid, Char.ofNat_toNat, ih]
                    rfl
                  · rw [encodeChar, if_neg h1, if_neg h2, if_neg h3, if_neg h4,
                      if_neg h5, if_neg h6, if_neg h7, if_neg h8]
                    rw [show [c] ++ (encodeStr t ++ '"' :: rest)
                        = c :: (encodeStr t ++ '"' :: rest) from rfl,
                      parseStrBody.eq_def]
                    simp only [if_neg h1, if_neg h2, if_neg h8, if_false]
                    rw [ih]
                    rfl

theorem pyInsert_not_mem {kvs : List (List Char × Json)} {k : List Char} {v : Json}
    (h : k ∉ kvs.map Prod.fst) : pyInsert kvs k v = kvs ++ [(k, v)] := by
  induction kvs with
  | nil => rfl
  | cons kv t ih =>
    obtain ⟨k', v'⟩ := kv
    simp only [List.map_cons, List.mem_cons] at h
    push_neg at h
    simp only [pyInsert, List.cons_append]
    rw [if_neg (fun he => h.1 he.symm), ih h.2]

theorem buildDict_go (pairs : List (List Char × Json)) :
    ∀ acc, ((acc ++ pairs).map Prod.fst).Nodup →
      pairs.foldl (fun a kv => pyInsert a kv.1 kv.2) acc = acc ++ pairs := by
  induction pairs with
  | nil => intro acc _; simp
  | cons kv t ih =>
    intro acc h
    have hk : kv.1 ∉ acc.map Prod.fst := by
      rw [List.map_append] at h
      have hd := (List.nodup_append.mp h).2.2
      intro hmem
      exact hd hmem (List.mem_map_of_mem Prod.fst (List.mem_cons_self kv t))
    simp only [List.foldl_cons]
    rw [pyInsert_not_mem hk]
    have := ih (acc ++ [kv]) (by
      rw [List.append_assoc]
      simpa using h)
    rw [this, List.append_assoc]
    simp

theorem buildDict_self (kvs : List (List Char × Json))
    (h : (kvs.map Prod.fst).Nodup) : buildDict kvs = kvs := by
  have := buildDict_go kvs [] (by simpa using h)
  simpa [buildDict] using this

theorem pyStartswith_append_self (p s : List Char) :
    pyStartswith (p ++ s) p = true := by
  induction p with
  | nil => cases s <;> rfl
  | cons c t ih => simp [pyStartswith, ih]

theorem pyStartswith_head_ne {c d : Char} (h : c ≠ d) (s p : List Char) :
    pyStartswith (c :: s) (d :: p) = false := by
  simp [pyStartswith, h]

theorem skipJWs_cons_of {c : Char} (t : List Char) (h : isJWs c = false) :
    skipJWs (c :: t) = c :: t := by
  simp [skipJWs, List.dropWhile_cons, h]

theorem digitChar_more (r : Nat) (h : r < 10) :
    digitChar r ≠ ',' ∧ digitChar r ≠ '-' ∧ digitChar r ≠ ':' := by
  interval_cases r <;> exact ⟨by decide, by decide, by decide⟩

theorem dumps_head_class (v : Json) :
    ∃ c t, dumps v = c :: t ∧ isJWs c = false ∧ isPyWs c = false
      ∧ c ≠ ']' ∧ c ≠ rbrace := by
  cases v with
  | null => exact ⟨'n', _, rfl, by decide, by decide, by decide, by decide⟩
  | bool b =>
    cases b
    · exact ⟨'f', _, rfl, by decide, by decide, by decide, by decide⟩
    · exact ⟨'t', _, rfl, by decide, by decide, by decide, by decide⟩
  | num n =>
    by_cases hneg : n < 0
    · exact ⟨'-', natToDigits (-n).toNat, by simp [dumps, dumpInt, hneg],
        by decide, by decide, by decide, by decide⟩
    · obtain ⟨r, t, ht, hr, _⟩ := natToDigits_cons n.toNat
      have hp := digitChar_props r hr
      refine ⟨digitChar r, t, ?_, hp.2.2.1, hp.2.2.2.1,
        hp.2.2.2.2.2.2.2.2.2.2.1, hp.2.2.2.2.2.2.2.2.2.2.2⟩
      simp [dumps, dumpInt, hneg, ht]
  | str s => exact ⟨'"', _, rfl, by decide, by decide, by decide, by decide⟩
  | arr xs =>
    cases xs
    · exact ⟨'[', _, rfl, by decide, by decide, by decide, by decide⟩
    · exact ⟨'[', _, rfl, by decide, by decide, by decide, by decide⟩
  | obj kvs =>
    cases kvs
    · exact ⟨lbrace, _, rfl, by decide, by decide, by decide, by decide⟩
    · exact ⟨lbrace, _, rfl, by decide, by decide, by decide, by decide⟩

theorem dumps_ne_nil (v : Json) : dumps v ≠ [] := by
  obtain ⟨c, t, ht, -⟩ := dumps_head_class v
  simp [ht]

theorem skipJWs_dumps (v : Json) (rest : List Char) :
    skipJWs (dumps v ++ rest) = dumps v ++ rest := by
  obtain ⟨c, t, ht, hj, -⟩ := dumps_head_class v
  rw [ht, List.cons_append, skipJWs_cons_of _ hj]

theorem dumps_last_class (v : Json) :
    ∃ c t, dumps v = t ++ [c] ∧ isPyWs c = false := by
  cases v with
  | null => exact ⟨'l', toL "nul", rfl, by decide⟩
  | bool b =>
    cases b
    · exact ⟨'e', toL "fals", rfl, by decide⟩
    · exact ⟨'e', toL "tru", rfl, by decide⟩
  | num n =>
    obtain ⟨r, t, ht, hr⟩ := natToDigits_last n.toNat
    by_cases hneg : n < 0
    · obtain ⟨r', t', ht', hr'⟩ := natToDigits_last (-n).toNat
      refine ⟨digitChar r', '-' :: t', ?_, (digitChar_props r' hr').2.2.2.1⟩
      simp [dumps, dumpInt, hneg, ht']
    · refine ⟨digitChar r, t, ?_, (digitChar_props r hr).2.2.2.1⟩
      simp [dumps, dumpInt, hneg, ht]
  | str s =>
    exact ⟨'"', '"' :: encodeStr s, by simp [dumps], by decide⟩
  | arr xs =>
    cases xs with
    | nil => exact ⟨']', ['['], rfl, by decide⟩
    | cons x t =>
      exact ⟨']', '[' :: (dumps x ++ dumpsArrTail t), by simp [dumps], by decide⟩
  | obj kvs =>
    cases kvs with
    | nil => exact ⟨rbrace, [lbrace], rfl, by decide⟩
    | cons kv t =>
      exact ⟨rbrace, lbrace :: (dumpsMember kv ++ dumpsObjTail t),
        by simp [dumps], by decide⟩

theorem skipJWs_ws_cons (t : List Char) : skipJWs (' ' :: t) = skipJWs t := by
  simp [skipJWs, List.dropWhile_cons, isJWs]

theorem parseVal_succ (f : Nat) (s : List Char) :
    parseVal (f + 1) s =
      (if pyStartswith s (toL "null") then some (.null, s.drop 4)
       else if pyStartswith s (toL "true") then some (.bool true, s.drop 4)
       else if pyStartswith s (toL "false") then some (.bool false, s.drop 5)
       else
         match s with
         | [] => none
         | c :: r =>
           if c = '"' then (parseStrBody r).map (fun p => (.str p.1, p.2))
           else if c = '[' then
             (let r1 := skipJWs r
              if r1.head? = some ']' then some (.arr [], r1.tail)
              else (parseElems f r1).map (fun p => (.arr p.1, p.2)))
           else if c = lbrace then
             (let r1 := skipJWs r
              if r1.head? = some rbrace then some (.obj [], r1.tail)
              else (parseMembers f r1).map (fun p => (.obj (buildDict p.1), p.2)))
           else if c = '-' || c.isDigit then
             (parseIntPart (c :: r)).map (fun p => (.num p.1, p.2))
           else none) := by
  rw [parseVal.eq_def]

theorem parseElems_succ (f : Nat) (s : List Char) :
    parseElems (f + 1) s =
      (match parseVal f s with
       | none => none
       | some (v, r) =>
         let r1 := skipJWs r
         if r1.head? = some ',' then
           (match parseElems f (skipJWs r1.tail) with
            | none => none
            | some (vs, r3) => some (v :: vs, r3))
         else if r1.head? = some ']' then some ([v], r1.tail)
         else none) := by
  rw [parseElems.eq_def]

theorem parseMembers_succ (f : Nat) (s : List Char) :
    parseMembers (f + 1) s =
      (if s.head? = some '"' then
        match parseStrBody s.tail with
        | none => none
        | some (k, r1) =>
          let r2 := skipJWs r1
          if r2.head? = some ':' then
            match parseVal f (skipJWs r2.tail) with
            | none => none
            | some (v, r3) =>
              let r4 := skipJWs r3
              if r4.head? = some ',' then
                (match parseMembers f (skipJWs r4.tail) with
                 | none => none
                 | some (ms, r5) => some ((k, v) :: ms, r5))
              else if r4.head? = some rbrace then some ([(k, v)], r4.tail)
              else none
          else none
      else none) := by
  rw [parseMembers.eq_def]

theorem parseVal_cons (f : Nat) (c : Char) (r : List Char)
    (hn : c ≠ 'n') (ht : c ≠ 't') (hf : c ≠ 'f') :
    parseVal (f + 1) (c :: r) =
      (if c = '"' then (parseStrBody r).map (fun p => (.str p.1, p.2))
       else if c = '[' then
         (let r1 := skipJWs r
          if r1.head? = some ']' then some (.arr [], r1.tail)
          else (parseElems f r1).map (fun p => (.arr p.1, p.2)))
       else if c = lbrace then
         (let r1 := skipJWs r
          if r1.head? = some rbrace then some (.obj [], r1.tail)
          else (parseMembers f r1).map (fun p => (.obj (buildDict p.1), p.2)))
       else if c = '-' || c.isDigit then
         (parseIntPart (c :: r)).map (fun p => (.num p.1, p.2))
       else none) := by
  rw [parseVal_succ,
    show toL "null" = 'n' :: toL "ull" from rfl, pyStartswith_head_ne hn,
    show toL "true" = 't' :: toL "rue" from rfl, pyStartswith_head_ne ht,
    show toL "false" = 'f' :: toL "alse" from rfl, pyStartswith_head_ne hf]
  simp

theorem rt_all (fuel : Nat) :
    (∀ v rest, wfB v = true → (dumps v).length ≤ fuel → restOk rest = true →
      parseVal fuel (dumps v ++ rest) = some (v, rest))
    ∧ (∀ x xs rest, wfB x = true → wfArrB xs = true →
        (dumps x).length + (dumpsArrTail xs).length + 1 ≤ fuel → restOk rest = true →
        parseElems fuel (dumps x ++ (dumpsArrTail xs ++ (']' :: rest)))
          = some (x :: xs, rest))
    ∧ (∀ k v kvs rest, wfB v = true → wfObjB kvs = true →
        (dumpsMember (k, v)).length + (dumpsObjTail kvs).length + 1 ≤ fuel →
        restOk rest = true →
        parseMembers fuel (dumpsMember (k, v) ++ (dumpsObjTail kvs ++ (rbrace :: rest)))
          = some ((k, v) :: kvs, rest)) := by
  induction fuel with
  | zero =>
    refine ⟨fun v rest _ hlen _ => ?_, fun x xs rest _ _ hlen _ => ?_,
      fun k v kvs rest _ _ hlen _ => ?_⟩
    · have := dumps_ne_nil v
      cases hd : dumps v with
      | nil => exact absurd hd this
      | cons c t => rw [hd] at hlen; simp at hlen
    · omega
    · omega
  | succ f ih =>
    obtain ⟨ihv, ihe, ihm⟩ := ih
    refine ⟨?_, ?_, ?_⟩
    · -- parseVal on a dumped value
      intro v rest hwf hlen hrest
      cases v with
      | null =>
        rw [show dumps .null = toL "null" from rfl]
        rw [parseVal_succ, pyStartswith_append_self]
        simp only [if_true]
        rw [List.drop_left' (show (toL "null").length = 4 from rfl)]
      | bool b =>
        cases b
        · rw [show dumps (.bool false) = toL "false" from rfl]
          rw [parseVal_succ]
          rw [show toL "false" ++ rest = 'f' :: (toL "alse" ++ rest) from rfl,
            show toL "null" = 'n' :: toL "ull" from rfl,
            pyStartswith_head_ne (by decide),
            show toL "true" = 't' :: toL "rue" from rfl,
            pyStartswith_head_ne (by decide),
            show ('f' : Char) :: (toL "alse" ++ rest) = toL "false" ++ rest from rfl,
            pyStartswith_append_self]
          simp only [Bool.false_eq_true, if_false, if_true]
          rw [List.drop_left' (show (toL "false").length = 5 from rfl)]
        · rw [show dumps (.bool true) = toL "true" from rfl]
          rw [parseVal_succ]
          rw [show toL "true" ++ rest = 't' :: (toL "rue" ++ rest) from rfl,
            show toL "null" = 'n' :: toL "ull" from rfl,
            pyStartswith_head_ne (by decide),
            show ('t' : Char) :: (toL "rue" ++ rest) = toL "true" ++ rest from rfl,
            pyStartswith_append_self]
          simp only [Bool.false_eq_true, if_false, if_true]
          rw [List.drop_left' (show (toL "true").length = 4 from rfl)]
      | num n =>
        by_cases hneg : n < 0
        · have hd : dumpInt n = '-' :: natToDigits (-n).toNat := by
            rw [dumpInt, if_pos hneg]
          rw [show dumps (.num n) = dumpInt n from rfl, hd, List.cons_append]
          rw [parseVal_cons f '-' _ (by decide) (by decide) (by decide)]
          rw [if_neg (by decide), if_neg (by decide), if_neg (by decide),
            if_pos (by decide)]
          rw [← List.cons_append, ← hd, parseIntPart_dump n rest hrest]
          rfl
        · have hd : dumpInt n = natToDigits n.toNat := by
            rw [dumpInt, if_neg hneg]
          obtain ⟨r, t, htn, hr, _⟩ := natToDigits_cons n.toNat
          have hp := digitChar_props r hr
          rw [show dumps (.num n) = dumpInt n from rfl, hd, htn, List.cons_append]
          rw [parseVal_cons f _ _ hp.2.2.2.2.1 hp.2.2.2.2.2.1 hp.2.2.2.2.2.2.1]
          rw [if_neg hp.2.2.2.2.2.2.2.1, if_neg hp.2.2.2.2.2.2.2.2.1,
            if_neg hp.2.2.2.2.2.2.2.2.2.1,
            if_pos (by rw [hp.1]; simp)]
          rw [← List.cons_append, ← htn, ← hd, parseIntPart_dump n rest hrest]
          rfl
      | str s =>
        rw [show dumps (.str s) = '"' :: (encodeStr s ++ ['"']) from rfl,
          List.cons_append, List.append_assoc]
        rw [parseVal_cons f '"' _ (by decide) (by decide) (by decide)]
        rw [if_pos rfl]
        rw [show ['"'] ++ rest = '"' :: rest from rfl, parseStrBody_encode]
        rfl
      | arr xs =>
        cases xs with
        | nil =>
          rw [show dumps (.arr []) ++ rest = '[' :: (']' :: rest) from rfl]
          rw [parseVal_cons f '[' _ (by decide) (by decide) (by decide)]
          rw [if_neg (by decide), if_pos rfl]
          rw [skipJWs_cons_of _ (by decide)]
          simp
        | cons x xs' =>
          simp only [wfB, wfArrB, Bool.and_eq_true] at hwf
          rw [show dumps (.arr (x :: xs')) ++ rest
              = '[' :: (dumps x ++ (dumpsArrTail xs' ++ (']' :: rest))) from by
            simp [dumps, List.append_assoc]]
          rw [parseVal_cons f '[' _ (by decide) (by decide) (by decide)]
          rw [if_neg (by decide), if_pos rfl]
          simp only
          obtain ⟨ch, ct, hct, hj, hpw, hne1, hne2⟩ := dumps_head_class x
          rw [hct, List.cons_append, skipJWs_cons_of _ hj, List.head?_cons,
            if_neg (by simp [hne1]), ← List.cons_append, ← hct]
          have hlen' : (dumps x).length + (dumpsArrTail xs').length + 1 ≤ f := by
            have : (dumps (.arr (x :: xs'))).length
                = 2 + (dumps x).length + (dumpsArrTail xs').length := by
              simp [dumps]
              omega
            omega
          rw [ihe x xs' rest hwf.1 hwf.2 hlen' hrest]
          rfl
      | obj kvs =>
        cases kvs with
        | nil =>
          rw [show dumps (.obj []) ++ rest = lbrace :: (rbrace :: rest) from rfl]
          rw [parseVal_cons f lbrace _ (by decide) (by decide) (by decide)]
          rw [if_neg (by decide), if_neg (by decide), if_pos rfl]
          rw [skipJWs_cons_of _ (by decide)]
          simp [buildDict]
        | cons kv kvs' =>
          obtain ⟨k, v⟩ := kv
          simp only [wfB, Bool.and_eq_true] at hwf
          have hnd : (((k, v) :: kvs').map Prod.fst).Nodup :=
            of_decide_eq_true hwf.1
          simp only [wfObjB, Bool.and_eq_true] at hwf
          rw [show dumps (.obj ((k, v) :: kvs')) ++ rest
              = lbrace :: (dumpsMember (k, v) ++ (dumpsObjTail kvs' ++ (rbrace :: rest)))
              from by simp [dumps, List.append_assoc]]
          rw [parseVal_cons f lbrace _ (by decide) (by decide) (by decide)]
          rw [if_neg (by decide), if_neg (by decide), if_pos rfl]
          simp only
          rw [show dumpsMember (k, v) ++ (dumpsObjTail kvs' ++ (rbrace :: rest))
              = '"' :: ((encodeStr k ++ ['"', ':', ' '] ++ dumps v)
                ++ (dumpsObjTail kvs' ++ (rbrace :: rest))) from rfl]
          rw [skipJWs_cons_of _ (by decide), List.head?_cons,
            if_neg (by decide)]
          rw [show ('"' : Char) :: ((encodeStr k ++ ['"', ':', ' '] ++ dumps v)
                ++ (dumpsObjTail kvs' ++ (rbrace :: rest)))
              = dumpsMember (k, v) ++ (dumpsObjTail kvs' ++ (rbrace :: rest)) from rfl]
          have hlen' : (dumpsMember (k, v)).length + (dumpsObjTail kvs').length + 1 ≤ f := by
            have : (dumps (.obj ((k, v) :: kvs'))).length
                = 2 + (dumpsMember (k, v)).length + (dumpsObjTail kvs').length := by
              simp [dumps]
              omega
            omega
          rw [ihm k v kvs' rest hwf.2.1 hwf.2.2 hlen' hrest]
          simp only [Option.map_some']
          rw [buildDict_self _ hnd]
    · -- parseElems on dumped elements
      intro x xs rest hwx hwxs hlen hrest
      have hxlen : (dumps x).length ≤ f := by omega
      have hro : restOk (dumpsArrTail xs ++ (']' :: rest)) = true := by
        cases xs with
        | nil => rfl
        | cons y ys => rfl
      rw [parseElems_succ,
        ihv x (dumpsArrTail xs ++ (']' :: rest)) hwx hxlen hro]
      simp only
      cases xs with
      | nil =>
        rw [show dumpsArrTail [] ++ (']' :: rest) = ']' :: rest from rfl]
        rw [skipJWs_cons_of _ (by decide), List.head?_cons]
        rw [if_neg (by decide), if_pos rfl]
        rfl
      | cons y ys =>
        simp only [wfArrB, Bool.and_eq_true] at hwxs
        rw [show dumpsArrTail (y :: ys) ++ (']' :: rest)
            = ',' :: (' ' :: (dumps y ++ (dumpsArrTail ys ++ (']' :: rest)))) from by
          simp [dumpsArrTail, List.append_assoc]]
        rw [skipJWs_cons_of _ (by decide), List.head?_cons, if_pos rfl,
          List.tail_cons]
        rw [skipJWs_ws_cons]
        rw [skipJWs_dumps]
        have hylen : (dumps y).length + (dumpsArrTail ys).length + 1 ≤ f := by
          have h1 : (dumpsArrTail (y :: ys)).length
              = 2 + (dumps y).length + (dumpsArrTail ys).length := by
            simp [dumpsArrTail]
            omega
          have h2 : 1 ≤ (dumps x).length := by
            have := dumps_ne_nil x
            cases hd : dumps x with
            | nil => exact absurd hd this
            | cons c t => simp [hd]
          omega
        rw [ihe y ys rest hwxs.1 hwxs.2 hylen hrest]
    · -- parseMembers on dumped members
      intro k v kvs rest hwv hwkvs hlen hrest
      have hvlen : (dumps v).length ≤ f := by
        have : (dumpsMember (k, v)).length
            = (encodeStr k).length + (dumps v).length + 4 := by
          simp [dumpsMember]
          omega
        omega
      have hro : restOk (dumpsObjTail kvs ++ (rbrace :: rest)) = true := by
        cases kvs with
        | nil => rfl
        | cons kv2 kvs2 => rfl
      rw [parseMembers_succ]
      rw [show dumpsMember (k, v) ++ (dumpsObjTail kvs ++ (rbrace :: rest))
          = '"' :: (encodeStr k ++ ('"' :: (':' :: (' ' :: (dumps v
              ++ (dumpsObjTail kvs ++ (rbrace :: rest)))))))  from by
        simp [dumpsMember, List.append_assoc]]
      rw [List.head?_cons, if_pos rfl, List.tail_cons, parseStrBody_encode]
      simp only
      rw [skipJWs_cons_of _ (by decide), List.head?_cons, if_pos rfl,
        List.tail_cons]
      rw [skipJWs_ws_cons]
      rw [skipJWs_dumps]
      rw [ihv v (dumpsObjTail kvs ++ (rbrace :: rest)) hwv hvlen hro]
      simp only
      cases kvs with
      | nil =>
        rw [show dumpsObjTail [] ++ (rbrace :: rest) = rbrace :: rest from rfl]
        rw [skipJWs_cons_of _ (by decide), List.head?_cons]
        rw [if_neg (by decide), if_pos rfl]
        rfl
      | cons kv2 kvs2 =>
        simp only [wfObjB, Bool.and_eq_true] at hwkvs
        obtain ⟨k2, v2⟩ := kv2
        rw [show dumpsObjTail ((k2, v2) :: kvs2) ++ (rbrace :: rest)
            = ',' :: (' ' :: (dumpsMember (k2, v2)
                ++ (dumpsObjTail kvs2 ++ (rbrace :: rest)))) from by
          simp [dumpsObjTail, List.append_assoc]]
        rw [skipJWs_cons_of _ (by decide), List.head?_cons, if_pos rfl,
          List.tail_cons]
        rw [skipJWs_ws_cons]
        rw [show skipJWs (dumpsMember (k2, v2) ++ (dumpsObjTail kvs2 ++ (rbrace :: rest)))
            = dumpsMember (k2, v2) ++ (dumpsObjTail kvs2 ++ (rbrace :: rest)) from by
          rw [show dumpsMember (k2, v2) ++ (dumpsObjTail kvs2 ++ (rbrace :: rest))
              = '"' :: ((encodeStr k2 ++ ['"', ':', ' '] ++ dumps v2)
                ++ (dumpsObjTail kvs2 ++ (rbrace :: rest))) from rfl]
          exact skipJWs_cons_of _ (by decide)]
        have hm2len : (dumpsMember (k2, v2)).length + (dumpsObjTail kvs2).length + 1 ≤ f := by
          have h1 : (dumpsObjTail ((k2, v2) :: kvs2)).length
              = 2 + (dumpsMember (k2, v2)).length + (dumpsObjTail kvs2).length := by
            simp [dumpsObjTail]
            omega
          omega
        rw [ihm k2 v2 kvs2 rest hwkvs.1 hwkvs.2 hm2len hrest]

theorem jsonLoads_dumps (v : Json) (h : wfB v = true) :
    jsonLoads (dumps v) = some v := by
  unfold jsonLoads
  rw [show skipJWs (dumps v) = dumps v from by simpa using skipJWs_dumps v []]
  have hrt := (rt_all (2 * (dumps v).length + 2)).1 v [] h (by omega) rfl
  rw [List.append_nil] at hrt
  rw [hrt]
  rfl

theorem pyStrip_sandwich (c d : Char) (t : List Char)
    (hc : isPyWs c = false) (hd : isPyWs d = false) :
    pyStrip (c :: (t ++ [d])) = c :: (t ++ [d]) := by
  unfold pyStrip
  rw [List.dropWhile_cons, if_neg (by simp [hc])]
  rw [show (c :: (t ++ [d])).reverse = d :: (t.reverse ++ [c]) from by simp]
  rw [List.dropWhile_cons, if_neg (by simp [hd])]
  simp

theorem pyEndswith_append (s p : List Char) : pyEndswith (s ++ p) p = true := by
  unfold pyEndswith
  rw [List.reverse_append]
  exact pyStartswith_append_self _ _

theorem pyStrip_nl_dumps (v : Json) :
    pyStrip ('\n' :: (dumps v ++ ['\n'])) = dumps v := by
  obtain ⟨ch, ct, hh, hj, hpw, h1, h2⟩ := dumps_head_class v
  obtain ⟨cl, lt, hl, hlpw⟩ := dumps_last_class v
  unfold pyStrip
  rw [List.dropWhile_cons, if_pos (by decide)]
  rw [hh, List.cons_append, List.dropWhile_cons, if_neg (by simp [hpw]),
    ← List.cons_append, ← hh]
  rw [show (dumps v ++ ['\n']).reverse = '\n' :: (dumps v).reverse from by simp]
  rw [List.dropWhile_cons, if_pos (by decide)]
  rw [hl, show (lt ++ [cl]).reverse = cl :: lt.reverse from by simp]
  rw [List.dropWhile_cons, if_neg (by simp [hlpw])]
  simp

theorem cleaned_fence_dumps (v : Json) :
    pyStrip (stripFence (pyStrip (fence (dumps v)))) = dumps v := by
  have e1 : fence (dumps v)
      = '`' :: ((toL "``json\n" ++ (dumps v ++ toL "\n``")) ++ ['`']) := by
    unfold fence
    rw [show toL "```json\n" = '`' :: toL "``json\n" from rfl,
      show toL "\n```" = toL "\n``" ++ ['`'] from rfl]
    simp [List.append_assoc]
  have hstrip1 : pyStrip (fence (dumps v)) = fence (dumps v) := by
    rw [e1, pyStrip_sandwich '`' '`' _ (by decide) (by decide)]
  rw [hstrip1]
  have e2 : fence (dumps v)
      = toL "```json" ++ ('\n' :: (dumps v ++ toL "\n```")) := by
    unfold fence
    rw [show toL "```json\n" = toL "```json" ++ ['\n'] from rfl]
    simp [List.append_assoc]
  have e3 : ('\n' :: (dumps v ++ toL "\n```"))
      = ('\n' :: (dumps v ++ ['\n'])) ++ toL "```" := by
    rw [show toL "\n```" = '\n' :: toL "```" from rfl]
    simp [List.append_assoc]
  unfold stripFence
  rw [e2, pyStartswith_append_self, if_pos rfl]
  rw [List.drop_left' (show (toL "```json").length = 7 from rfl)]
  rw [e3]
  simp only [pyEndswith_append, if_true]
  rw [List.take_left'
    (show (('\n' :: (dumps v ++ ['\n'])) : List Char).length
      = (('\n' :: (dumps v ++ ['\n'])) ++ toL "```").length - 3 from by
        simp [show (toL "```").length = 3 from rfl])]
  exact pyStrip_nl_dumps v

/-- Helper: the full fenced round trip, up to the post-parse repair. -/
theorem parse_fence_dumps (v : Json) (h : wfB v = true) :
    parse_gemini_json_output (fence (dumps v)) = .ok (some (postRepair v)) := by
  have hne : (fence (dumps v)).isEmpty = false := by
    unfold fence
    rw [show toL "```json\n" = '`' :: toL "``json\n" from rfl]
    rfl
  unfold parse_gemini_json_output
  rw [hne]
  simp only [Bool.false_eq_true, if_false]
  rw [cleaned_fence_dumps v]
  rw [show jsonLoadsE (dumps v) = .ok v from by
    unfold jsonLoadsE
    rw [jsonLoads_dumps v h]]

/-- C8 (amended): for every well-formed JSON value `v` that the
post-parse `box_2d` repair leaves unchanged,
`parse(fence(json_dump(v))) == v`; a value containing the malformed
`box_2d` shape comes back repaired instead of unchanged. -/
theorem c8_fence_roundtrip (v : Json) (h : wfB v = true)
    (hrep : postRepair v = v) :
    parse_gemini_json_output (fence (dumps v)) = .ok (some v) := by
  rw [parse_fence_dumps v h, hrep]

/-- The malformed-`box_2d` value that refutes the unamended round-trip
claim. -/
def c8Value : Json :=
  .arr [.obj [(toL "box_2d",
      .arr [.obj [(toL "ymin", .num 1), (toL "xmin", .num 2),
                  (toL "ymax", .num 3), (toL "xmax", .num 4)]]),
      (toL "label", .str (toL "dog"))]]

/-- C8 counterexample: fencing and re-parsing the serialized value
`[{"box_2d": [{"ymin": 1, "xmin": 2, "ymax": 3, "xmax": 4}], "label": "dog"}]`
does not return it unchanged — the post-parse repair rewrites its
`box_2d` to `[1, 2, 3, 4]`. -/
theorem c8_counterexample :
    parse_gemini_json_output (fence (dumps c8Value))
      = .ok (some (.arr [.obj [(toL "box_2d", .arr [.num 1, .num 2, .num 3, .num 4]),
          (toL "label", .str (toL "dog"))]]))
    ∧ parse_gemini_json_output (fence (dumps c8Value)) ≠ .ok (some c8Value) := by
  constructor
  · rfl
  · intro hcontra
    rw [show parse_gemini_json_output (fence (dumps c8Value))
        = .ok (some (.arr [.obj [(toL "box_2d", .arr [.num 1, .num 2, .num 3, .num 4]),
            (toL "label", .str (toL "dog"))]])) from rfl] at hcontra
    simp [c8Value, toL] at hcontra

/-- Witness for C8 (amended) at a value the repair leaves unchanged. -/
theorem c8_witness :
    parse_gemini_json_output (fence (dumps (.arr [.obj
        [(toL "point", .arr [.num 500, .num 500]),
         (toL "label", .str (toL "cat"))]])))
      = .ok (some (.arr [.obj
        [(toL "point", .arr [.num 500, .num 500]),
         (toL "label", .str (toL "cat"))]])) :=
  c8_fence_roundtrip
    (.arr [.obj [(toL "point", .arr [.num 500, .num 500]),
                 (toL "label", .str (toL "cat"))]])
    (by rfl) (by rfl)

end ImageScanner
